import Mathlib

/-!
Shallow embedding of the Biogen simulation core (src/core/{brain,spatial_grid,
agent,world,simulation}.py and src/utils/config.py) and proofs settling the
frozen claims about it.

Modelling conventions:
* Python floats are modelled as exact rationals (ℚ).  All numeric literals in
  the source (0.015, 1.2, ...) are exact rationals, so this is faithful for
  every arithmetic operation the source performs except the transcendental
  library calls (math.sqrt, math.atan2/degrees, math.tanh, cos/sin used by
  pygame.Vector2.rotate).  Those are abstracted into a `MathOps` record of
  rational-valued functions; every positive theorem below is universally
  quantified over `MathOps`, hence holds in particular for the real functions.
  Concrete refutations use an interpretation `ops0` that agrees with the real
  functions at every point where the trace evaluates them (all weights are 0,
  so tanh is only applied to 0, and all headings are 0, so cos/sin are only
  applied to 0).
* Python's process-wide random source is modelled by passing every drawn value
  explicitly (records `MutateRand`, `ReproRand`, `FreshRand`, `StepRand`).
* Mutable aliased objects (agents shared between `self.agents`, the spatial
  grid and `others` lists; resources shared between `self.resources` and the
  grid) are modelled by integer-indexed stores (`List Agent`, `List ResState`)
  threaded through the tick; the grid holds indices (`Ent`).
* `self.resources` is a Python set; membership is modelled by a `present` flag
  on the resource store and iteration order by store index order.
* The activation caches `ax_in/ax_hid/ax_out` (read only by the renderer) and
  the activity heatmap update are analytics-only state; the heatmap is kept in
  the model, the activation caches are not (predict is modelled as the pure
  function it computes).
-/

namespace BioGen

/- Named numeric parameters from src/utils/config.py (the ones the core
logic reads). -/
namespace config

def WORLD_W : ℚ := 5000
def WORLD_H : ℚ := 5000
def INITIAL_POP : ℕ := 80
def MIN_POP : ℕ := 20
def MAX_POP : ℕ := 150
def BASE_STAT : ℚ := 100
def DECAY_ENERGY : ℚ := 0.015
def DECAY_THIRST : ℚ := 0.02
def REPRO_THRESHOLD : ℚ := 75
def REPRO_COST : ℚ := 40
def HID_NODES : ℕ := 6
def MAX_HIDDEN_NODES : ℕ := 12
def MUTATION_RATE_STRUCT : ℚ := 0.05
def GRID_CELL_SIZE : ℚ := 200

end config

/-- Interpretations of the transcendental library functions the source calls:
math.sqrt, math.degrees(math.atan2(y, x)), cosine/sine in degrees (used by
pygame.Vector2.rotate) and math.tanh.  Theorems are quantified over all
interpretations, so they hold for the real ones. -/
structure MathOps where
  sqrt : ℚ → ℚ
  atan2deg : ℚ → ℚ → ℚ
  cosD : ℚ → ℚ
  sinD : ℚ → ℚ
  tanh : ℚ → ℚ

/-- Indexed map (used to model per-weight random draws: the draw for the
weight at row i, column j is `f i j`). -/
def mapIdxFrom (f : ℕ → α → β) : ℕ → List α → List β
  | _, [] => []
  | i, a :: as => f i a :: mapIdxFrom f (i + 1) as

theorem length_mapIdxFrom (f : ℕ → α → β) (i : ℕ) (l : List α) :
    (mapIdxFrom f i l).length = l.length := by
  induction l generalizing i with
  | nil => rfl
  | cons a as ih => simp [mapIdxFrom, ih]

theorem forall_mem_mapIdxFrom {P : β → Prop} (f : ℕ → α → β) (i : ℕ) (l : List α)
    (h : ∀ j a, a ∈ l → P (f j a)) : ∀ b ∈ mapIdxFrom f i l, P b := by
  induction l generalizing i with
  | nil => intro b hb; simp [mapIdxFrom] at hb
  | cons a as ih =>
    intro b hb
    simp only [mapIdxFrom, List.mem_cons] at hb
    rcases hb with h1 | h2
    · exact h1 ▸ h i a (by simp)
    · exact ih (i + 1) (fun j x hx => h j x (by simp [hx])) b h2

/-- src/core/brain.py, NeuralNetwork.  `num_in = 8` and `num_out = 2` are the
fixed constants of `__init__`; `w_ih` has `num_in` rows of `num_hidden`
columns, `w_ho` has `num_hidden` rows of `num_out` columns. -/
structure NeuralNetwork where
  num_hidden : ℕ
  w_ih : List (List ℚ)
  w_ho : List (List ℚ)
deriving DecidableEq

namespace NeuralNetwork

def num_in : ℕ := 8
def num_out : ℕ := 2

/-- The dimension invariant of the spec: weight matrix dimensions always
match the current hidden width. -/
def WF (nn : NeuralNetwork) : Prop :=
  nn.w_ih.length = num_in ∧ (∀ row ∈ nn.w_ih, row.length = nn.num_hidden) ∧
  nn.w_ho.length = nn.num_hidden ∧ (∀ row ∈ nn.w_ho, row.length = num_out)

instance (nn : NeuralNetwork) : Decidable nn.WF := by
  unfold WF; infer_instance

/-- NeuralNetwork.__init__ with `weights=None`: random initialization.  The
uniform(-1, 1) draws are supplied as `ihW i j` and `hoW i j`. -/
def fresh (ihW hoW : ℕ → ℕ → ℚ) : NeuralNetwork where
  num_hidden := config.HID_NODES
  w_ih := (List.range num_in).map fun i =>
    (List.range config.HID_NODES).map fun j => ihW i j
  w_ho := (List.range config.HID_NODES).map fun i =>
    (List.range num_out).map fun j => hoW i j

/-- NeuralNetwork.predict: hidden j = tanh(Σ_i inputs[i]·w_ih[i][j]),
out j = tanh(Σ_i hid[i]·w_ho[i][j]); the two outputs are (thrust, rotate). -/
def predict (ops : MathOps) (nn : NeuralNetwork) (inputs : List ℚ) : ℚ × ℚ :=
  let hid := (List.range nn.num_hidden).map fun j =>
    ops.tanh (((List.range num_in).map fun i =>
      inputs.getD i 0 * (nn.w_ih.getD i []).getD j 0).sum)
  let out := fun j =>
    ops.tanh (((List.range nn.num_hidden).map fun i =>
      hid.getD i 0 * (nn.w_ho.getD i []).getD j 0).sum)
  (out 0, out 1)

/-- The random draws one call of NeuralNetwork.mutate consumes: one 10% roll
and one noise value per weight, the structural roll, the add/remove coin, and
fresh uniform(-1,1) weights for a possible new node. -/
structure MutateRand where
  ihRoll : ℕ → ℕ → ℚ
  ihNoise : ℕ → ℕ → ℚ
  hoRoll : ℕ → ℕ → ℚ
  hoNoise : ℕ → ℕ → ℚ
  structRoll : ℚ
  coin : ℚ
  newIhW : ℕ → ℚ
  newHoW : ℕ → ℚ

/-- brain.py `_mut_w`: 10% chance of additive noise. -/
def mutW (roll noise w : ℚ) : ℚ := if roll < 0.1 then w + noise else w

/-- NeuralNetwork.mutate: per-weight mutation, then (with probability
MUTATION_RATE_STRUCT) a structural step: `if coin < 0.5 and new_hidden <
MAX_HIDDEN_NODES` append a node, `elif new_hidden > 2` drop the last node.
Note the `elif`: a failed append guard falls through to the removal test. -/
def mutate (nn : NeuralNetwork) (r : MutateRand) : NeuralNetwork :=
  let new_ih := mapIdxFrom (fun i row =>
    mapIdxFrom (fun j w => mutW (r.ihRoll i j) (r.ihNoise i j) w) 0 row) 0 nn.w_ih
  let new_ho := mapIdxFrom (fun i row =>
    mapIdxFrom (fun j w => mutW (r.hoRoll i j) (r.hoNoise i j) w) 0 row) 0 nn.w_ho
  let new_hidden := nn.num_hidden
  if r.structRoll < config.MUTATION_RATE_STRUCT then
    if r.coin < 0.5 ∧ new_hidden < config.MAX_HIDDEN_NODES then
      { num_hidden := new_hidden + 1,
        w_ih := mapIdxFrom (fun i row => row ++ [r.newIhW i]) 0 new_ih,
        w_ho := new_ho ++ [(List.range num_out).map fun j => r.newHoW j] }
    else if new_hidden > 2 then
      { num_hidden := new_hidden - 1,
        w_ih := new_ih.map fun row => row.dropLast,
        w_ho := new_ho.dropLast }
    else
      { num_hidden := new_hidden, w_ih := new_ih, w_ho := new_ho }
  else
    { num_hidden := new_hidden, w_ih := new_ih, w_ho := new_ho }

/-- Shape of the two matrices after the per-weight mutation pass (before the
structural step). -/
theorem mutate_weights_shape (nn : NeuralNetwork) (r : MutateRand) (h : nn.WF) :
    (mapIdxFrom (fun i row =>
        mapIdxFrom (fun j w => mutW (r.ihRoll i j) (r.ihNoise i j) w) 0 row) 0 nn.w_ih).length
        = num_in ∧
    (∀ row ∈ mapIdxFrom (fun i row =>
        mapIdxFrom (fun j w => mutW (r.ihRoll i j) (r.ihNoise i j) w) 0 row) 0 nn.w_ih,
        row.length = nn.num_hidden) ∧
    (mapIdxFrom (fun i row =>
        mapIdxFrom (fun j w => mutW (r.hoRoll i j) (r.hoNoise i j) w) 0 row) 0 nn.w_ho).length
        = nn.num_hidden ∧
    (∀ row ∈ mapIdxFrom (fun i row =>
        mapIdxFrom (fun j w => mutW (r.hoRoll i j) (r.hoNoise i j) w) 0 row) 0 nn.w_ho,
        row.length = num_out) := by
  obtain ⟨h1, h2, h3, h4⟩ := h
  refine ⟨by rw [length_mapIdxFrom]; exact h1, ?_, by rw [length_mapIdxFrom]; exact h3, ?_⟩
  · exact forall_mem_mapIdxFrom _ _ _ fun j a ha => by
      rw [length_mapIdxFrom]; exact h2 a ha
  · exact forall_mem_mapIdxFrom _ _ _ fun j a ha => by
      rw [length_mapIdxFrom]; exact h4 a ha

/-- The hidden width produced by one mutate call, as a function of the
structural roll, the coin and the old width. -/
theorem mutate_num_hidden (nn : NeuralNetwork) (r : MutateRand) :
    (nn.mutate r).num_hidden =
      if r.structRoll < config.MUTATION_RATE_STRUCT then
        if r.coin < 0.5 ∧ nn.num_hidden < config.MAX_HIDDEN_NODES then nn.num_hidden + 1
        else if nn.num_hidden > 2 then nn.num_hidden - 1
        else nn.num_hidden
      else nn.num_hidden := by
  unfold mutate
  dsimp only
  split_ifs <;> rfl

/-- Bounds on the hidden width produced by one mutate call. -/
theorem mutate_num_hidden_bounds (nn : NeuralNetwork) (r : MutateRand)
    (h2 : 2 ≤ nn.num_hidden) (h12 : nn.num_hidden ≤ config.MAX_HIDDEN_NODES) :
    2 ≤ (nn.mutate r).num_hidden ∧
    (nn.mutate r).num_hidden ≤ config.MAX_HIDDEN_NODES ∧
    (nn.num_hidden = config.MAX_HIDDEN_NODES →
      (nn.mutate r).num_hidden ≤ nn.num_hidden) := by
  rw [mutate_num_hidden]
  simp only [config.MAX_HIDDEN_NODES] at *
  split_ifs with hA hB hC
  · obtain ⟨-, hlt⟩ := hB
    omega
  · omega
  · omega
  · omega

/-- Mutation preserves the dimension invariant unconditionally. -/
theorem mutate_WF (nn : NeuralNetwork) (r : MutateRand) (h : nn.WF) :
    (nn.mutate r).WF := by
  obtain ⟨hih, hihr, hho, hhor⟩ := mutate_weights_shape nn r h
  unfold mutate WF
  dsimp only
  split_ifs with h1 h2 h3
  · dsimp only
    refine ⟨by rw [length_mapIdxFrom]; exact hih, ?_, ?_, ?_⟩
    · exact forall_mem_mapIdxFrom _ _ _ fun j a ha => by
        simp only [List.length_append, List.length_cons, List.length_nil, hihr a ha]
    · simp only [List.length_append, List.length_cons, List.length_nil, hho]
    · intro row hrow
      rcases List.mem_append.mp hrow with hl | hr
      · exact hhor row hl
      · simp only [List.mem_singleton] at hr
        subst hr
        simp [num_out]
  · dsimp only
    refine ⟨by rw [List.length_map]; exact hih, ?_, ?_, ?_⟩
    · intro row hrow
      rcases List.mem_map.mp hrow with ⟨row0, hrow0, hmap⟩
      subst hmap
      rw [List.length_dropLast, hihr row0 hrow0]
    · rw [List.length_dropLast, hho]
    · intro row hrow
      exact hhor row (List.dropLast_subset _ hrow)
  · exact ⟨hih, hihr, hho, hhor⟩
  · exact ⟨hih, hihr, hho, hhor⟩

end NeuralNetwork

open NeuralNetwork in
/-- Claim C8: for every Controller, the weight matrix dimensions always match
the current hidden width (input-to-hidden is 8 rows of hidden-width columns;
hidden-to-output is hidden-width rows of 2 columns); mutate() preserves this
invariant, keeps the hidden width within [2, MAX_HIDDEN_NODES], and, when the
hidden width is at its configured maximum, never increases it, regardless of
random outcome. -/
theorem claim_C8_mutate_preserves_dims (nn : NeuralNetwork) (r : MutateRand)
    (h : nn.WF) (h2 : 2 ≤ nn.num_hidden) (h12 : nn.num_hidden ≤ config.MAX_HIDDEN_NODES) :
    (nn.mutate r).WF ∧
    2 ≤ (nn.mutate r).num_hidden ∧
    (nn.mutate r).num_hidden ≤ config.MAX_HIDDEN_NODES ∧
    (nn.num_hidden = config.MAX_HIDDEN_NODES →
      (nn.mutate r).num_hidden ≤ nn.num_hidden) := by
  obtain ⟨b1, b2, b3⟩ := mutate_num_hidden_bounds nn r h2 h12
  exact ⟨mutate_WF nn r h, b1, b2, b3⟩

/-- Concrete 12-hidden-node well-formed network (all weights 0). -/
def nn12 : NeuralNetwork where
  num_hidden := 12
  w_ih := List.replicate 8 (List.replicate 12 0)
  w_ho := List.replicate 12 (List.replicate 2 0)

/-- Concrete 2-hidden-node well-formed network (all weights 0). -/
def nn2 : NeuralNetwork where
  num_hidden := 2
  w_ih := List.replicate 8 (List.replicate 2 0)
  w_ho := List.replicate 2 (List.replicate 2 0)

/-- Random draws that fire a structural mutation with the coin selecting the
append branch (both rolls 0) and mutate no individual weight. -/
def mrAdd : NeuralNetwork.MutateRand where
  ihRoll := fun _ _ => 1
  ihNoise := fun _ _ => 0
  hoRoll := fun _ _ => 1
  hoNoise := fun _ _ => 0
  structRoll := 0
  coin := 0
  newIhW := fun _ => 0
  newHoW := fun _ => 0

/-- Random draws that fire a structural mutation with the coin selecting the
remove branch (coin 1 ≥ 0.5) and mutate no individual weight. -/
def mrRemove : NeuralNetwork.MutateRand where
  ihRoll := fun _ _ => 1
  ihNoise := fun _ _ => 0
  hoRoll := fun _ _ => 1
  hoNoise := fun _ _ => 0
  structRoll := 0
  coin := 1
  newIhW := fun _ => 0
  newHoW := fun _ => 0

/-- Witness for C8 at a concrete network and draw. -/
theorem claim_C8_witness :
    nn12.WF ∧ 2 ≤ nn12.num_hidden ∧ nn12.num_hidden ≤ config.MAX_HIDDEN_NODES ∧
    ((nn12.mutate mrAdd).WF ∧
     2 ≤ (nn12.mutate mrAdd).num_hidden ∧
     (nn12.mutate mrAdd).num_hidden ≤ config.MAX_HIDDEN_NODES ∧
     (nn12.num_hidden = config.MAX_HIDDEN_NODES →
       (nn12.mutate mrAdd).num_hidden ≤ nn12.num_hidden)) :=
  ⟨by decide, by decide, by decide,
   claim_C8_mutate_preserves_dims nn12 mrAdd (by decide) (by decide) (by decide)⟩

/-- Counterexample to claim C9: on a Controller at the maximum hidden width
(12), a structural mutation whose equal-chance coin selects the append branch
is NOT a no-op: the `elif` in brain.py falls through to the removal branch and
the resulting hidden width is 11, not 12. -/
theorem claim_C9_counterexample :
    nn12.num_hidden = config.MAX_HIDDEN_NODES ∧
    mrAdd.structRoll < config.MUTATION_RATE_STRUCT ∧
    mrAdd.coin < 0.5 ∧
    (nn12.mutate mrAdd).num_hidden = 11 := by
  refine ⟨by decide, by norm_num [mrAdd, config.MUTATION_RATE_STRUCT],
    by norm_num [mrAdd], ?_⟩
  rw [NeuralNetwork.mutate_num_hidden]
  norm_num [mrAdd, nn12, config.MUTATION_RATE_STRUCT, config.MAX_HIDDEN_NODES]

open NeuralNetwork in
/-- Claim C9 (amended): a structural mutation attempt that would violate the
hidden-width floor is silently skipped (a no-op), but an append attempt at the
configured maximum width is not skipped: the guard failure falls through to
the removal branch, so when mutate() fires a structural mutation at maximum
hidden width with the coin selecting append, the resulting hidden width is
the original width minus one. -/
theorem claim_C9_struct_mutation_guards (nn : NeuralNetwork) (r : MutateRand)
    (hs : r.structRoll < config.MUTATION_RATE_STRUCT) :
    (nn.num_hidden = config.MAX_HIDDEN_NODES → r.coin < 0.5 →
      (nn.mutate r).num_hidden = nn.num_hidden - 1) ∧
    (nn.num_hidden = 2 → ¬ r.coin < 0.5 →
      (nn.mutate r).num_hidden = 2) := by
  constructor
  · intro hmax hcoin
    have hnot : ¬ (r.coin < 0.5 ∧ nn.num_hidden < config.MAX_HIDDEN_NODES) := by
      rintro ⟨-, hlt⟩
      rw [hmax] at hlt
      exact lt_irrefl _ hlt
    have hgt : nn.num_hidden > 2 := by
      simp only [config.MAX_HIDDEN_NODES] at hmax
      omega
    rw [mutate_num_hidden, if_pos hs, if_neg hnot, if_pos hgt]
  · intro h2 hcoin
    have hnot : ¬ (r.coin < 0.5 ∧ nn.num_hidden < config.MAX_HIDDEN_NODES) := by
      rintro ⟨hc, -⟩
      exact hcoin hc
    have hngt : ¬ nn.num_hidden > 2 := by
      rw [h2]
      decide
    rw [mutate_num_hidden, if_pos hs, if_neg hnot, if_neg hngt]
    exact h2

/-- Witness for the amended C9 at concrete networks and draws. -/
theorem claim_C9_witness :
    (nn12.mutate mrAdd).num_hidden = nn12.num_hidden - 1 ∧
    (nn2.mutate mrRemove).num_hidden = 2 :=
  ⟨(claim_C9_struct_mutation_guards nn12 mrAdd
      (by norm_num [mrAdd, config.MUTATION_RATE_STRUCT])).1 (by decide)
      (by norm_num [mrAdd]),
   (claim_C9_struct_mutation_guards nn2 mrRemove
      (by norm_num [mrRemove, config.MUTATION_RATE_STRUCT])).2 (by decide)
      (by norm_num [mrRemove])⟩

/-- Python `range(lo, hi + 1)` over ℤ, given as start plus count. -/
def intRangeAux (lo : ℤ) : ℕ → List ℤ
  | 0 => []
  | n + 1 => lo :: intRangeAux (lo + 1) n

/-- The list `lo, lo+1, ..., hi` (empty when `hi < lo`). -/
def intRangeList (lo hi : ℤ) : List ℤ := intRangeAux lo (hi + 1 - lo).toNat

theorem mem_intRangeAux {k lo : ℤ} {n : ℕ} (h1 : lo ≤ k) (h2 : k < lo + n) :
    k ∈ intRangeAux lo n := by
  induction n generalizing lo with
  | zero => omega
  | succ m ih =>
    rcases eq_or_lt_of_le h1 with he | hlt
    · exact he ▸ List.mem_cons_self _ _
    · exact List.mem_cons_of_mem _ (ih (by omega) (by omega))

theorem mem_intRangeList {k lo hi : ℤ} (h1 : lo ≤ k) (h2 : k ≤ hi) :
    k ∈ intRangeList lo hi := by
  unfold intRangeList
  exact mem_intRangeAux h1 (by omega)

/-- src/core/spatial_grid.py, SpatialGrid.  Buckets map integer cell
coordinates to the list of entities inserted into that cell (an absent
dictionary key is the empty list).  The entity type is a parameter, mirroring
the duck-typed Python container; `posOf` below models the `.pos` attribute
access. -/
structure SpatialGrid (α : Type) where
  cell_size : ℚ
  cols : ℤ
  rows : ℤ
  grid : (ℤ × ℤ) → List α

namespace SpatialGrid

/-- SpatialGrid.__init__: `cols = int(width // cell_size) + 1` (and likewise
rows); `int(x // c)` on nonnegative reals is the floor of `x / c`. -/
def init (α : Type) (width height cell_size : ℚ) : SpatialGrid α where
  cell_size := cell_size
  cols := ⌊width / cell_size⌋ + 1
  rows := ⌊height / cell_size⌋ + 1
  grid := fun _ => []

/-- SpatialGrid._get_key. -/
def get_key (cell_size : ℚ) (pos : ℚ × ℚ) : ℤ × ℤ :=
  (⌊pos.1 / cell_size⌋, ⌊pos.2 / cell_size⌋)

/-- SpatialGrid.clear. -/
def clear (g : SpatialGrid α) : SpatialGrid α := { g with grid := fun _ => [] }

/-- SpatialGrid.insert: append the entity to its cell's bucket. -/
def insert (g : SpatialGrid α) (posOf : α → ℚ × ℚ) (e : α) : SpatialGrid α :=
  let key := get_key g.cell_size (posOf e)
  { g with grid := fun k => if k = key then g.grid k ++ [e] else g.grid k }

/-- Insert a list of entities in order (the per-tick grid rebuild). -/
def insertAll (g : SpatialGrid α) (posOf : α → ℚ × ℚ) (es : List α) : SpatialGrid α :=
  es.foldl (fun acc e => acc.insert posOf e) g

/-- SpatialGrid.get_nearby: scan the square of cells within
`int(radius // cell_size) + 1` of the center's cell, skipping cells outside
`[0, cols) × [0, rows)`, concatenating their buckets. -/
def get_nearby (g : SpatialGrid α) (pos : ℚ × ℚ) (radius : ℚ) : List α :=
  let c := get_key g.cell_size pos
  let r_cells := ⌊radius / g.cell_size⌋ + 1
  ((intRangeList (c.1 - r_cells) (c.1 + r_cells)).filter
      (fun i => decide (0 ≤ i ∧ i < g.cols))).flatMap fun i =>
    ((intRangeList (c.2 - r_cells) (c.2 + r_cells)).filter
        (fun j => decide (0 ≤ j ∧ j < g.rows))).flatMap fun j =>
      g.grid (i, j)

theorem insert_cell_size (g : SpatialGrid α) (posOf : α → ℚ × ℚ) (e : α) :
    (g.insert posOf e).cell_size = g.cell_size := rfl

theorem insert_cols (g : SpatialGrid α) (posOf : α → ℚ × ℚ) (e : α) :
    (g.insert posOf e).cols = g.cols := rfl

theorem insert_rows (g : SpatialGrid α) (posOf : α → ℚ × ℚ) (e : α) :
    (g.insert posOf e).rows = g.rows := rfl

theorem insertAll_cell_size (g : SpatialGrid α) (posOf : α → ℚ × ℚ) (es : List α) :
    (g.insertAll posOf es).cell_size = g.cell_size := by
  induction es generalizing g with
  | nil => rfl
  | cons e es ih => exact ih (g.insert posOf e)

theorem insertAll_cols (g : SpatialGrid α) (posOf : α → ℚ × ℚ) (es : List α) :
    (g.insertAll posOf es).cols = g.cols := by
  induction es generalizing g with
  | nil => rfl
  | cons e es ih => exact ih (g.insert posOf e)

theorem insertAll_rows (g : SpatialGrid α) (posOf : α → ℚ × ℚ) (es : List α) :
    (g.insertAll posOf es).rows = g.rows := by
  induction es generalizing g with
  | nil => rfl
  | cons e es ih => exact ih (g.insert posOf e)

theorem mem_grid_insert_of_mem (g : SpatialGrid α) (posOf : α → ℚ × ℚ)
    (x e : α) (k : ℤ × ℤ) (h : e ∈ g.grid k) : e ∈ (g.insert posOf x).grid k := by
  unfold insert
  dsimp only
  split_ifs with hk
  · exact List.mem_append_left _ h
  · exact h

theorem mem_grid_insert_self (g : SpatialGrid α) (posOf : α → ℚ × ℚ) (e : α) :
    e ∈ (g.insert posOf e).grid (get_key g.cell_size (posOf e)) := by
  unfold insert
  dsimp only
  rw [if_pos rfl]
  exact List.mem_append_right _ (List.mem_singleton.mpr rfl)

theorem mem_grid_insertAll_of_mem (g : SpatialGrid α) (posOf : α → ℚ × ℚ)
    (es : List α) (e : α) (k : ℤ × ℤ) (h : e ∈ g.grid k) :
    e ∈ (g.insertAll posOf es).grid k := by
  induction es generalizing g with
  | nil => exact h
  | cons x es ih => exact ih (g.insert posOf x) (mem_grid_insert_of_mem g posOf x e k h)

/-- Every inserted entity ends up in the bucket of its cell key. -/
theorem mem_grid_insertAll (g : SpatialGrid α) (posOf : α → ℚ × ℚ)
    (es : List α) (e : α) (he : e ∈ es) :
    e ∈ (g.insertAll posOf es).grid (get_key g.cell_size (posOf e)) := by
  induction es generalizing g with
  | nil => cases he
  | cons x es ih =>
    rcases List.mem_cons.mp he with rfl | hmem
    · exact mem_grid_insertAll_of_mem _ posOf es e _ (mem_grid_insert_self g posOf e)
    · rw [show get_key g.cell_size (posOf e)
            = get_key (g.insert posOf x).cell_size (posOf e) from rfl]
      exact ih (g.insert posOf x) hmem

/-- Anything in a bucket whose cell lies in the scanned in-bounds square is
returned by get_nearby. -/
theorem mem_get_nearby (g : SpatialGrid α) (pos : ℚ × ℚ) (radius : ℚ)
    (e : α) (ki kj : ℤ) (h : e ∈ g.grid (ki, kj))
    (hi1 : (get_key g.cell_size pos).1 - (⌊radius / g.cell_size⌋ + 1) ≤ ki)
    (hi2 : ki ≤ (get_key g.cell_size pos).1 + (⌊radius / g.cell_size⌋ + 1))
    (hj1 : (get_key g.cell_size pos).2 - (⌊radius / g.cell_size⌋ + 1) ≤ kj)
    (hj2 : kj ≤ (get_key g.cell_size pos).2 + (⌊radius / g.cell_size⌋ + 1))
    (hbi : 0 ≤ ki ∧ ki < g.cols) (hbj : 0 ≤ kj ∧ kj < g.rows) :
    e ∈ g.get_nearby pos radius := by
  unfold get_nearby
  dsimp only
  refine List.mem_flatMap.mpr ⟨ki, ?_, ?_⟩
  · exact List.mem_filter.mpr ⟨mem_intRangeList hi1 hi2, by simpa using hbi⟩
  · refine List.mem_flatMap.mpr ⟨kj, ?_, ?_⟩
    · exact List.mem_filter.mpr ⟨mem_intRangeList hj1 hj2, by simpa using hbj⟩
    · exact h

end SpatialGrid

/-- Floor of a sum exceeds the sum of floors by at most 1. -/
theorem floor_add_le_bound (a b : ℚ) : ⌊a + b⌋ ≤ ⌊a⌋ + ⌊b⌋ + 1 := by
  have hlt : a + b < ((⌊a⌋ + ⌊b⌋ + 2 : ℤ) : ℚ) := by
    have ha := Int.lt_floor_add_one a
    have hb := Int.lt_floor_add_one b
    push_cast
    linarith
  have := Int.floor_lt.mpr hlt
  omega

/-- Floor of a difference undershoots the difference of floors by at most 1. -/
theorem floor_sub_ge_bound (a b : ℚ) : ⌊a⌋ - ⌊b⌋ - 1 ≤ ⌊a - b⌋ := by
  refine Int.le_floor.mpr ?_
  have ha := Int.floor_le a
  have hb := Int.lt_floor_add_one b
  push_cast
  linarith

/-- Concrete out-of-bounds entity used to refute claim C3 as stated: a fresh
offspring at x = -20 (reproduce() does not wrap the child position, so such
placements are reachable before the child's first movement wraps it). -/
def oobEnt : ℚ × ℚ := (-20, 100)

/-- The world grid of the simulation (WORLD_SIZE with GRID_CELL_SIZE) holding
only `oobEnt`. -/
def oobGrid : SpatialGrid (ℚ × ℚ) :=
  (SpatialGrid.init (ℚ × ℚ) config.WORLD_W config.WORLD_H config.GRID_CELL_SIZE).insertAll
    (fun e => e) [oobEnt]

/-- Counterexample to claim C3 as stated: for arbitrary entity placements,
get_nearby is NOT a superset of the in-range entities.  `oobEnt` sits at
distance 25 ≤ 200 from the query center (5, 100), yet its cell (-1, 0) is
skipped by the bounds check, so the query misses it. -/
theorem claim_C3_counterexample :
    oobEnt ∈ [oobEnt] ∧
    (oobEnt.1 - 5) ^ 2 + (oobEnt.2 - 100) ^ 2 ≤ (200 : ℚ) ^ 2 ∧
    oobEnt ∉ oobGrid.get_nearby (5, 100) 200 := by
  refine ⟨List.mem_singleton.mpr rfl, by norm_num [oobEnt], ?_⟩
  norm_num [oobGrid, oobEnt, SpatialGrid.init, SpatialGrid.insertAll,
    SpatialGrid.insert, SpatialGrid.get_nearby, SpatialGrid.get_key,
    intRangeList, intRangeAux, config.WORLD_W, config.WORLD_H,
    config.GRID_CELL_SIZE, Int.reduceToNat, List.filter, List.flatMap]

open SpatialGrid in
/-- Claim C3 (amended): for every set of entities inserted at positions
within the world bounds (which is every insertion the simulation performs on
agents after wrapping and on spawned resources — but not, e.g., a fresh
unwrapped offspring), every query center and every nonnegative radius,
get_nearby returns a superset of the entities whose exact Euclidean distance
to the center is at most the radius: the scanned square of cells always
covers the cell of any such in-bounds entity. -/
theorem claim_C3_query_radius_superset {α : Type} (posOf : α → ℚ × ℚ)
    (es : List α) (w h c : ℚ) (hc : 0 < c)
    (hb : ∀ x ∈ es, 0 ≤ (posOf x).1 ∧ (posOf x).1 ≤ w ∧
                    0 ≤ (posOf x).2 ∧ (posOf x).2 ≤ h)
    (p : ℚ × ℚ) (radius : ℚ) (hr : 0 ≤ radius) (e : α) (he : e ∈ es)
    (hdist : ((posOf e).1 - p.1) ^ 2 + ((posOf e).2 - p.2) ^ 2 ≤ radius ^ 2) :
    e ∈ ((SpatialGrid.init α w h c).insertAll posOf es).get_nearby p radius := by
  set g := (SpatialGrid.init α w h c).insertAll posOf es with hg
  obtain ⟨hex0, hexw, hey0, heyh⟩ := hb e he
  have hcs : g.cell_size = c := insertAll_cell_size _ posOf es
  have hcols : g.cols = ⌊w / c⌋ + 1 := insertAll_cols _ posOf es
  have hrows : g.rows = ⌊h / c⌋ + 1 := insertAll_rows _ posOf es
  have hmem : e ∈ g.grid (⌊(posOf e).1 / c⌋, ⌊(posOf e).2 / c⌋) := by
    have := mem_grid_insertAll (SpatialGrid.init α w h c) posOf es e he
    simpa [SpatialGrid.init, get_key] using this
  -- coordinate-wise distance bounds
  have hx : |(posOf e).1 - p.1| ≤ radius := by
    rw [abs_le]
    constructor <;> nlinarith [sq_nonneg ((posOf e).2 - p.2)]
  have hy : |(posOf e).2 - p.2| ≤ radius := by
    rw [abs_le]
    constructor <;> nlinarith [sq_nonneg ((posOf e).1 - p.1)]
  -- the entity's cell is inside the scanned square
  have hdivx : (posOf e).1 / c ≤ p.1 / c + radius / c := by
    rw [← add_div]
    exact (div_le_div_iff_of_pos_right hc).mpr (by cases abs_le.mp hx; linarith)
  have hdivx2 : p.1 / c - radius / c ≤ (posOf e).1 / c := by
    rw [← sub_div]
    exact (div_le_div_iff_of_pos_right hc).mpr (by cases abs_le.mp hx; linarith)
  have hdivy : (posOf e).2 / c ≤ p.2 / c + radius / c := by
    rw [← add_div]
    exact (div_le_div_iff_of_pos_right hc).mpr (by cases abs_le.mp hy; linarith)
  have hdivy2 : p.2 / c - radius / c ≤ (posOf e).2 / c := by
    rw [← sub_div]
    exact (div_le_div_iff_of_pos_right hc).mpr (by cases abs_le.mp hy; linarith)
  have hxu : ⌊(posOf e).1 / c⌋ ≤ ⌊p.1 / c⌋ + (⌊radius / c⌋ + 1) := by
    have h1 := Int.floor_le_floor hdivx
    have h2 := floor_add_le_bound (p.1 / c) (radius / c)
    omega
  have hxl : ⌊p.1 / c⌋ - (⌊radius / c⌋ + 1) ≤ ⌊(posOf e).1 / c⌋ := by
    have h1 := Int.floor_le_floor hdivx2
    have h2 := floor_sub_ge_bound (p.1 / c) (radius / c)
    omega
  have hyu : ⌊(posOf e).2 / c⌋ ≤ ⌊p.2 / c⌋ + (⌊radius / c⌋ + 1) := by
    have h1 := Int.floor_le_floor hdivy
    have h2 := floor_add_le_bound (p.2 / c) (radius / c)
    omega
  have hyl : ⌊p.2 / c⌋ - (⌊radius / c⌋ + 1) ≤ ⌊(posOf e).2 / c⌋ := by
    have h1 := Int.floor_le_floor hdivy2
    have h2 := floor_sub_ge_bound (p.2 / c) (radius / c)
    omega
  -- the entity's cell is inside the grid bounds
  have hbx : 0 ≤ ⌊(posOf e).1 / c⌋ ∧ ⌊(posOf e).1 / c⌋ < g.cols := by
    constructor
    · exact Int.le_floor.mpr (by push_cast; exact div_nonneg hex0 hc.le)
    · rw [hcols]
      have := Int.floor_le_floor ((div_le_div_iff_of_pos_right hc).mpr hexw)
      omega
  have hby : 0 ≤ ⌊(posOf e).2 / c⌋ ∧ ⌊(posOf e).2 / c⌋ < g.rows := by
    constructor
    · exact Int.le_floor.mpr (by push_cast; exact div_nonneg hey0 hc.le)
    · rw [hrows]
      have := Int.floor_le_floor ((div_le_div_iff_of_pos_right hc).mpr heyh)
      omega
  refine mem_get_nearby g p radius e _ _ hmem ?_ ?_ ?_ ?_ hbx hby
  all_goals simp only [hcs, get_key]
  · exact hxl
  · exact hxu
  · exact hyl
  · exact hyu

/-- Witness for the amended C3 at a concrete placement: an in-bounds entity
at (150, 100), queried from (5, 100) with radius 200, is returned. -/
theorem claim_C3_witness :
    ((150 : ℚ), (100 : ℚ)) ∈
      ((SpatialGrid.init (ℚ × ℚ) config.WORLD_W config.WORLD_H
        config.GRID_CELL_SIZE).insertAll (fun e => e)
          [((150 : ℚ), (100 : ℚ))]).get_nearby (5, 100) 200 :=
  claim_C3_query_radius_superset (fun e => e) [((150 : ℚ), (100 : ℚ))]
    config.WORLD_W config.WORLD_H config.GRID_CELL_SIZE
    (by norm_num [config.GRID_CELL_SIZE])
    (by intro x hx; simp only [List.mem_singleton] at hx; subst hx;
        norm_num [config.WORLD_W, config.WORLD_H])
    (5, 100) 200 (by norm_num) _ (List.mem_singleton.mpr rfl) (by norm_num)

/-- Squared Euclidean distance (pygame Vector2.distance_squared_to). -/
def dsq (a b : ℚ × ℚ) : ℚ := (a.1 - b.1) ^ 2 + (a.2 - b.2) ^ 2

/-- Python float `x % m` for positive `m`: the representative of x in [0, m). -/
def qmod (x m : ℚ) : ℚ := x - m * ⌊x / m⌋

/-- Archetype classification of agent.py (visual and behavioral class,
computed once in __init__). -/
inductive Archetype
  | HUNTER
  | EXPLORER
  | GATHERER
deriving DecidableEq

/-- agent.py archetype determination: hunter_factor > 0.7 → HUNTER, else
exploration_drive > 0.7 → EXPLORER, else GATHERER. -/
def archetypeOf (hunter_factor exploration_drive : ℚ) : Archetype :=
  if hunter_factor > 0.7 then Archetype.HUNTER
  else if exploration_drive > 0.7 then Archetype.EXPLORER
  else Archetype.GATHERER

/-- src/core/agent.py, Agent.  The four `dna_*` fields are the entries of the
DNA dict (keys 'speed', 'sense', 'hunter_factor', 'exploration_drive');
`lastOut0/lastOut1` are `self.last_out`; `archetype` is stored at
construction exactly as in __init__ and never recomputed. -/
structure Agent where
  posx : ℚ
  posy : ℚ
  angle : ℚ
  brain : NeuralNetwork
  gen : ℕ
  energy : ℚ
  thirst : ℚ
  alive : Bool
  age : ℚ
  dna_speed : ℚ
  dna_sense : ℚ
  dna_hunter_factor : ℚ
  dna_exploration_drive : ℚ
  archetype : Archetype
  lastOut0 : ℚ
  lastOut1 : ℚ
deriving DecidableEq

instance : Inhabited Agent where
  default :=
    { posx := 0, posy := 0, angle := 0, brain := ⟨0, [], []⟩, gen := 1,
      energy := 0, thirst := 0, alive := false, age := 0, dna_speed := 0,
      dna_sense := 0, dna_hunter_factor := 0, dna_exploration_drive := 0,
      archetype := Archetype.GATHERER, lastOut0 := 0, lastOut1 := 0 }

namespace Agent

/-- Agent.__init__ with brain, generation and dna supplied.  The `pos`
argument goes through Python truthiness (`pygame.Vector2(pos) if pos else
Vector2(uniform(0, W), uniform(0, H))`): it is falsy when it is None and
also when it is the exactly-zero vector (pygame's Vector2(0, 0) is falsy),
and in both cases the constructor discards it and uses the fresh uniform
draws `randPosx` / `randPosy` instead.  A truthy supplied position is used
as is (note it is NOT wrapped to world bounds).  The heading is always
drawn uniformly from [0, 360): it is passed as `angleDraw`.  Energy and
thirst start at BASE_STAT, age at 0, alive. -/
def make (pos : Option (ℚ × ℚ)) (randPosx randPosy angleDraw : ℚ)
    (brain : NeuralNetwork) (gen : ℕ)
    (speed sense hunter_factor exploration_drive : ℚ) : Agent where
  posx := match pos with
          | some p => if p.1 = 0 ∧ p.2 = 0 then randPosx else p.1
          | none => randPosx
  posy := match pos with
          | some p => if p.1 = 0 ∧ p.2 = 0 then randPosy else p.2
          | none => randPosy
  angle := angleDraw
  brain := brain
  gen := gen
  energy := config.BASE_STAT
  thirst := config.BASE_STAT
  alive := true
  age := 0
  dna_speed := speed
  dna_sense := sense
  dna_hunter_factor := hunter_factor
  dna_exploration_drive := exploration_drive
  archetype := archetypeOf hunter_factor exploration_drive
  lastOut0 := 0
  lastOut1 := 0

/-- The random draws Agent.__init__ consumes when neither position, brain nor
dna are given: uniform position in the world, uniform angle, uniform(-1,1)
network weights, speed ∈ [0.8, 1.4], sense ∈ [300, 600], hunter_factor and
exploration_drive ∈ [0, 1). -/
structure FreshRand where
  posx : ℚ
  posy : ℚ
  angle : ℚ
  ihW : ℕ → ℕ → ℚ
  hoW : ℕ → ℕ → ℚ
  speed : ℚ
  sense : ℚ
  hunter_factor : ℚ
  exploration_drive : ℚ

/-- `Agent()`: a freshly generated generation-1 agent with random position,
random brain and random dna (pos=None is falsy, so the constructor's uniform
position draws are consumed). -/
def fresh (r : FreshRand) : Agent :=
  make none r.posx r.posy r.angle (NeuralNetwork.fresh r.ihW r.hoW) 1
    r.speed r.sense r.hunter_factor r.exploration_drive

/-- Agent._sense: nearest target within the sensing radius; `(1, 0)` when the
candidate list is empty or nothing is in radius; otherwise normalized
distance `sqrt(min_d_sq) / max_dist` and normalized smallest signed angle
difference `((target_ang - angle + 180) % 360 - 180) / 180`. -/
def senseNearest (ops : MathOps) (a : Agent) (targets : List (ℚ × ℚ))
    (max_dist : ℚ) : ℚ × ℚ :=
  if targets.isEmpty then (1, 0)
  else
    let res := targets.foldl
      (fun (acc : Option (ℚ × ℚ) × ℚ) t =>
        let d_sq := dsq (a.posx, a.posy) t
        if d_sq < acc.2 then (some t, d_sq) else acc)
      (none, max_dist * max_dist)
    match res with
    | (some nearest, min_d_sq) =>
        let dist := ops.sqrt min_d_sq
        let target_ang := ops.atan2deg (nearest.2 - a.posy) (nearest.1 - a.posx)
        let ang_diff := qmod (target_ang - a.angle + 180) 360 - 180
        (dist / max_dist, ang_diff / 180)
    | (none, _) => (1, 0)

/-- agent.py lines 88–97 (step 4, metabolism and the death check): energy
decays by (DECAY_ENERGY + movement cost)·mult·dt, thirst by
DECAY_THIRST·mult·dt — the movement cost `(|thrust| + |rotate|) * 0.01`
is applied to energy only.  If either stat falls to 0 or below the liveness
flag is cleared immediately. -/
def metabolism (a : Agent) (thrust rotate dt : ℚ) : Agent :=
  let m_cost := (|thrust| + |rotate|) * 0.01
  let decay_mult : ℚ := if a.archetype = Archetype.EXPLORER then 1.2 else 1
  let e := a.energy - (config.DECAY_ENERGY + m_cost) * decay_mult * dt
  let t := a.thirst - config.DECAY_THIRST * decay_mult * dt
  { a with energy := e, thirst := t,
           alive := if e ≤ 0 ∨ t ≤ 0 then false else a.alive }

/-- One iteration of the predation loop (agent.py lines 101–107): `other !=
self` is object identity, modelled by store indices; there is no check of
either party's liveness.  A victim in range loses 40 energy, the attacker's
energy is set to min(100, energy + 30), and the victim's flag is cleared
exactly when its energy is now ≤ 0. -/
def hunterStep (selfIdx : ℕ) (acc : Agent × List Agent) (oid : ℕ) :
    Agent × List Agent :=
  let a := acc.1
  let store := acc.2
  let other := store.getD oid default
  if oid ≠ selfIdx ∧ dsq (a.posx, a.posy) (other.posx, other.posy) < 400 then
    let other1 := { other with energy := other.energy - 40 }
    let a1 := { a with energy := min 100 (a.energy + 30) }
    let other2 := if other1.energy ≤ 0 then { other1 with alive := false } else other1
    (a1, store.set oid other2)
  else acc

/-- agent.py lines 99–107 (step 5, hunter behavior): only when archetype is
HUNTER and (post-metabolism) energy < 70 is the visible-agents list scanned;
the liveness flag of the attacker is never consulted. -/
def hunterPhase (a : Agent) (selfIdx : ℕ) (others : List ℕ)
    (store : List Agent) : Agent × List Agent :=
  if a.archetype = Archetype.HUNTER ∧ a.energy < 70 then
    others.foldl (hunterStep selfIdx) (a, store)
  else (a, store)

/-- Agent.update: perception, decision, physics, metabolism, predation.
`food` and `water` are the positions of the pre-filtered candidate resources,
`others` the store indices of the visible agents; the updated self and the
store with any predation effects are returned. -/
def update (ops : MathOps) (selfIdx : ℕ) (a : Agent) (dt : ℚ)
    (food water : List (ℚ × ℚ)) (others : List ℕ) (store : List Agent) :
    Agent × List Agent :=
  let a0 := { a with age := a.age + dt }
  let fse := senseNearest ops a0 food a0.dna_sense
  let wse := senseNearest ops a0 water a0.dna_sense
  let inputs := [fse.1, fse.2, wse.1, wse.2, a0.energy / 100, a0.thirst / 100,
    a0.lastOut0, a0.lastOut1]
  let tr := a0.brain.predict ops inputs
  let thrust := tr.1
  let rotate := tr.2
  let a1 := { a0 with lastOut0 := thrust, lastOut1 := rotate }
  let angle1 := a1.angle + rotate * 15 * dt
  let dirx := ops.cosD angle1
  let diry := ops.sinD angle1
  let base_speed := (thrust + 1.1) * 2 * a1.dna_speed
  let actual_speed :=
    if a1.archetype = Archetype.EXPLORER then base_speed * 1.2 else base_speed
  let px := qmod (a1.posx + dirx * actual_speed * dt) config.WORLD_W
  let py := qmod (a1.posy + diry * actual_speed * dt) config.WORLD_H
  let a2 := { a1 with angle := angle1, posx := px, posy := py }
  let a3 := a2.metabolism thrust rotate dt
  a3.hunterPhase selfIdx others store

/-- The random draws one Agent.reproduce call consumes: the brain-mutation
draws, one uniform(-0.1, 0.1) noise per dna trait, the uniform(-30, 30)
position offset, the child constructor's angle draw, and the constructor's
uniform position draws `posDrawx` / `posDrawy` (consumed only when the
offspring position parent+offset is exactly the zero vector, which is
falsy in Python). -/
structure ReproRand where
  mr : NeuralNetwork.MutateRand
  noise_speed : ℚ
  noise_sense : ℚ
  noise_hunter : ℚ
  noise_explore : ℚ
  offx : ℚ
  offy : ℚ
  angleDraw : ℚ
  posDrawx : ℚ
  posDrawy : ℚ

/-- agent.py line 137: `max(0.1, min(1.0, v + noise))`. -/
def clampTrait (v : ℚ) : ℚ := max 0.1 (min 1 v)

/-- Agent.reproduce: mutated brain copy, each dna trait perturbed and clamped
to [0.1, 1.0], child at parent position plus offset (which the constructor's
truthiness test replaces by a random position when it is exactly (0, 0)),
generation + 1. -/
def reproduce (a : Agent) (r : ReproRand) : Agent :=
  let new_brain := a.brain.mutate r.mr
  make (some (a.posx + r.offx, a.posy + r.offy)) r.posDrawx r.posDrawy
    r.angleDraw new_brain (a.gen + 1)
    (clampTrait (a.dna_speed + r.noise_speed))
    (clampTrait (a.dna_sense + r.noise_sense))
    (clampTrait (a.dna_hunter_factor + r.noise_hunter))
    (clampTrait (a.dna_exploration_drive + r.noise_explore))

end Agent

theorem clampTrait_range (v : ℚ) : 0.1 ≤ Agent.clampTrait v ∧ Agent.clampTrait v ≤ 1 := by
  unfold Agent.clampTrait
  constructor
  · exact le_max_left _ _
  · exact max_le (by norm_num) (min_le_left _ _)

/-- Claim C7 (amended): reproduce() returns a child with generation =
parent's + 1, an independently mutated controller copy, each dna trait
perturbed by the drawn noise and clamped to [0.1, 1.0] (hence all child
traits lie in [0.1, 1.0]), fresh baselines energy = 100, thirst = 100,
age = 0 — and position = parent position + drawn offset EXCEPT when that
sum is exactly the zero vector: pygame's Vector2(0, 0) is falsy, so
Agent.__init__'s `if pos` test then discards it and places the child at a
fresh uniform random position instead. -/
theorem claim_C7_reproduce_spec (a : Agent) (r : Agent.ReproRand) :
    (a.reproduce r).gen = a.gen + 1 ∧
    (a.reproduce r).brain = a.brain.mutate r.mr ∧
    (a.reproduce r).dna_speed = Agent.clampTrait (a.dna_speed + r.noise_speed) ∧
    (a.reproduce r).dna_sense = Agent.clampTrait (a.dna_sense + r.noise_sense) ∧
    (a.reproduce r).dna_hunter_factor
      = Agent.clampTrait (a.dna_hunter_factor + r.noise_hunter) ∧
    (a.reproduce r).dna_exploration_drive
      = Agent.clampTrait (a.dna_exploration_drive + r.noise_explore) ∧
    (0.1 ≤ (a.reproduce r).dna_speed ∧ (a.reproduce r).dna_speed ≤ 1) ∧
    (0.1 ≤ (a.reproduce r).dna_sense ∧ (a.reproduce r).dna_sense ≤ 1) ∧
    (0.1 ≤ (a.reproduce r).dna_hunter_factor ∧
      (a.reproduce r).dna_hunter_factor ≤ 1) ∧
    (0.1 ≤ (a.reproduce r).dna_exploration_drive ∧
      (a.reproduce r).dna_exploration_drive ≤ 1) ∧
    (¬(a.posx + r.offx = 0 ∧ a.posy + r.offy = 0) →
      (a.reproduce r).posx = a.posx + r.offx ∧
      (a.reproduce r).posy = a.posy + r.offy) ∧
    (a.posx + r.offx = 0 ∧ a.posy + r.offy = 0 →
      (a.reproduce r).posx = r.posDrawx ∧
      (a.reproduce r).posy = r.posDrawy) ∧
    (a.reproduce r).energy = 100 ∧
    (a.reproduce r).thirst = 100 ∧
    (a.reproduce r).age = 0 ∧
    (a.reproduce r).alive = true := by
  refine ⟨rfl, rfl, rfl, rfl, rfl, rfl,
    clampTrait_range _, clampTrait_range _, clampTrait_range _, clampTrait_range _,
    fun h => ⟨?_, ?_⟩, fun h => ⟨?_, ?_⟩, rfl, rfl, rfl, rfl⟩
  · show (if a.posx + r.offx = 0 ∧ a.posy + r.offy = 0 then r.posDrawx
      else a.posx + r.offx) = a.posx + r.offx
    exact if_neg h
  · show (if a.posx + r.offx = 0 ∧ a.posy + r.offy = 0 then r.posDrawy
      else a.posy + r.offy) = a.posy + r.offy
    exact if_neg h
  · show (if a.posx + r.offx = 0 ∧ a.posy + r.offy = 0 then r.posDrawx
      else a.posx + r.offx) = r.posDrawx
    exact if_pos h
  · show (if a.posx + r.offx = 0 ∧ a.posy + r.offy = 0 then r.posDrawy
      else a.posy + r.offy) = r.posDrawy
    exact if_pos h

/-- Concrete parent for the C7 counterexample and witness: a Gatherer at
(100, 100). -/
def agC7 : Agent where
  posx := 100
  posy := 100
  angle := 0
  brain := NeuralNetwork.fresh (fun _ _ => 0) (fun _ _ => 0)
  gen := 1
  energy := 80
  thirst := 50
  alive := true
  age := 5
  dna_speed := 1
  dna_sense := 300
  dna_hunter_factor := 1/2
  dna_exploration_drive := 1/2
  archetype := Archetype.GATHERER
  lastOut0 := 0
  lastOut1 := 0

/-- Concrete reproduction draws with offset (10, -10): the offspring position
(110, 90) is truthy, so the constructor keeps it. -/
def rrC7off : Agent.ReproRand where
  mr := mrRemove
  noise_speed := 0
  noise_sense := 0
  noise_hunter := 0
  noise_explore := 0
  offx := 10
  offy := -10
  angleDraw := 0
  posDrawx := 2500
  posDrawy := 2600

/-- The same draws with offset (-100, -100): parent (100, 100) plus this
offset is exactly the zero vector. -/
def rrC7zero : Agent.ReproRand := { rrC7off with offx := -100, offy := -100 }

/-- Counterexample to C7 as stated: the position conjunct is not universal.
A parent at (100, 100) draws the offset (-100, -100); parent + offset is the
zero vector, which is falsy in Python (pygame's Vector2(0, 0)), so
Agent.__init__ discards it and places the child at the constructor's
uniform position draws (2500, 2600) — not at parent + offset = (0, 0). -/
theorem claim_C7_counterexample :
    agC7.posx + rrC7zero.offx = 0 ∧ agC7.posy + rrC7zero.offy = 0 ∧
    (agC7.reproduce rrC7zero).posx = 2500 ∧
    (agC7.reproduce rrC7zero).posy = 2600 ∧
    ¬((agC7.reproduce rrC7zero).posx = agC7.posx + rrC7zero.offx ∧
      (agC7.reproduce rrC7zero).posy = agC7.posy + rrC7zero.offy) := by
  norm_num [agC7, rrC7zero, rrC7off, Agent.reproduce, Agent.make]

/-- Witness for C7: with a truthy offspring position the child sits at
parent + offset, and in the zero-vector corner case at the constructor's
fresh draws. -/
theorem claim_C7_witness :
    ((agC7.reproduce rrC7off).posx = agC7.posx + rrC7off.offx ∧
     (agC7.reproduce rrC7off).posy = agC7.posy + rrC7off.offy) ∧
    ((agC7.reproduce rrC7zero).posx = rrC7zero.posDrawx ∧
     (agC7.reproduce rrC7zero).posy = rrC7zero.posDrawy) :=
  ⟨(claim_C7_reproduce_spec agC7 rrC7off).2.2.2.2.2.2.2.2.2.2.1
      (by norm_num [agC7, rrC7off]),
   (claim_C7_reproduce_spec agC7 rrC7zero).2.2.2.2.2.2.2.2.2.2.2.1
      (by norm_num [agC7, rrC7zero, rrC7off])⟩

theorem clampTrait_eq_one {v : ℚ} (h : 1 ≤ v) : Agent.clampTrait v = 1 := by
  unfold Agent.clampTrait
  rw [min_eq_left h]
  exact max_eq_right (by norm_num)

/-- Claim C10: the reproduction clamp applies to the 'sense' trait as well:
any parent whose sensing radius is at least 1.1 produces children whose
sensing radius is exactly 1.0 (the drawn noise is at least -0.1); in
particular the offspring of a freshly generated agent (sense drawn from
[300, 600]) has its sensing radius collapsed to 1.0. -/
theorem claim_C10_sense_collapse (a : Agent) (r : Agent.ReproRand)
    (hs : 1.1 ≤ a.dna_sense) (hn : -0.1 ≤ r.noise_sense) :
    (a.reproduce r).dna_sense = 1 ∧
    (∀ (fr : Agent.FreshRand) (r2 : Agent.ReproRand), 300 ≤ fr.sense →
      -0.1 ≤ r2.noise_sense → ((Agent.fresh fr).reproduce r2).dna_sense = 1) := by
  constructor
  · exact clampTrait_eq_one (by linarith)
  · intro fr r2 h300 hn2
    exact clampTrait_eq_one (by
      show (1:ℚ) ≤ (Agent.fresh fr).dna_sense + r2.noise_sense
      have : (Agent.fresh fr).dna_sense = fr.sense := rfl
      rw [this]
      linarith)

/-- Concrete parent for the C10 witness: a freshly generated agent whose
sense trait was drawn as 450 ∈ [300, 600]. -/
def frC10 : Agent.FreshRand where
  posx := 1000
  posy := 1000
  angle := 0
  ihW := fun _ _ => 0
  hoW := fun _ _ => 0
  speed := 1
  sense := 450
  hunter_factor := 1/2
  exploration_drive := 1/2

/-- Concrete reproduction draws for the C10 witness (sense noise 0.05). -/
def rrC10 : Agent.ReproRand where
  mr := mrRemove
  noise_speed := 0
  noise_sense := 0.05
  noise_hunter := 0
  noise_explore := 0
  offx := 10
  offy := -10
  angleDraw := 0
  posDrawx := 2000
  posDrawy := 2000

/-- Witness for C10: the offspring of a fresh agent with sense 450 has sense
exactly 1. -/
theorem claim_C10_witness :
    ((Agent.fresh frC10).reproduce rrC10).dna_sense = 1 :=
  (claim_C10_sense_collapse (Agent.fresh frC10) rrC10
    (by norm_num [Agent.fresh, Agent.make, frC10])
    (by norm_num [rrC10])).2 frC10 rrC10 (by norm_num [frC10]) (by norm_num [rrC10])

theorem getD_set_ne {α : Type} {l : List α} {i j : ℕ} (x d : α) (h : i ≠ j) :
    (l.set i x).getD j d = l.getD j d := by
  induction l generalizing i j with
  | nil => rfl
  | cons a as ih =>
    cases i with
    | zero =>
      cases j with
      | zero => exact absurd rfl h
      | succ m => rfl
    | succ n =>
      cases j with
      | zero => rfl
      | succ m => exact ih (by omega)

theorem getD_set_self {α : Type} {l : List α} {i : ℕ} (x d : α)
    (h : i < l.length) : (l.set i x).getD i d = x := by
  induction l generalizing i with
  | nil => simp at h
  | cons a as ih =>
    cases i with
    | zero => rfl
    | succ n => exact ih (by simpa using h)

namespace Agent

theorem hunterStep_self_pos (selfIdx : ℕ) (a : Agent) (st : List Agent) (oid : ℕ) :
    (hunterStep selfIdx (a, st) oid).1.posx = a.posx ∧
    (hunterStep selfIdx (a, st) oid).1.posy = a.posy ∧
    (hunterStep selfIdx (a, st) oid).1.thirst = a.thirst ∧
    (hunterStep selfIdx (a, st) oid).1.alive = a.alive ∧
    (hunterStep selfIdx (a, st) oid).1.archetype = a.archetype := by
  unfold hunterStep
  dsimp only
  split_ifs <;> exact ⟨rfl, rfl, rfl, rfl, rfl⟩

/-- The predation loop body only touches the store at the index it is
visiting. -/
theorem hunterStep_store_other (selfIdx : ℕ) (a : Agent) (st : List Agent)
    (oid : ℕ) {j : ℕ} (hj : j ≠ oid) (d : Agent) :
    (hunterStep selfIdx (a, st) oid).2.getD j d = st.getD j d := by
  unfold hunterStep
  dsimp only
  split_ifs with h h2
  · exact getD_set_ne _ _ (fun he => hj he.symm)
  · exact getD_set_ne _ _ (fun he => hj he.symm)
  · rfl

/-- An attack iteration whose guard fails is the identity. -/
theorem hunterStep_guard_false (selfIdx : ℕ) (a : Agent) (st : List Agent)
    (oid : ℕ)
    (h : ¬ (oid ≠ selfIdx ∧
      dsq (a.posx, a.posy)
        ((st.getD oid default).posx, (st.getD oid default).posy) < 400)) :
    hunterStep selfIdx (a, st) oid = (a, st) := by
  unfold hunterStep
  dsimp only
  rw [if_neg h]

/-- The predation fold never changes the attacker's position, thirst,
liveness flag or archetype (only its energy). -/
theorem hunterFold_self (selfIdx : ℕ) (others : List ℕ) (a : Agent)
    (st : List Agent) :
    (others.foldl (hunterStep selfIdx) (a, st)).1.posx = a.posx ∧
    (others.foldl (hunterStep selfIdx) (a, st)).1.posy = a.posy ∧
    (others.foldl (hunterStep selfIdx) (a, st)).1.thirst = a.thirst ∧
    (others.foldl (hunterStep selfIdx) (a, st)).1.alive = a.alive ∧
    (others.foldl (hunterStep selfIdx) (a, st)).1.archetype = a.archetype := by
  induction others generalizing a st with
  | nil => exact ⟨rfl, rfl, rfl, rfl, rfl⟩
  | cons o os ih =>
    rw [List.foldl_cons]
    rcases hstep : hunterStep selfIdx (a, st) o with ⟨a1, st1⟩
    obtain ⟨h1, h2, h3, h4, h5⟩ := hunterStep_self_pos selfIdx a st o
    rw [hstep] at h1 h2 h3 h4 h5
    obtain ⟨g1, g2, g3, g4, g5⟩ := ih a1 st1
    exact ⟨g1.trans h1, g2.trans h2, g3.trans h3, g4.trans h4, g5.trans h5⟩

/-- If the predation fold changed the store entry at index j, then j was in
the scanned visible list, is not the attacker itself, and was within the
capture radius of the attacker — note: no condition on the victim's liveness
flag. -/
theorem hunterFold_change (selfIdx : ℕ) (others : List ℕ) (a : Agent)
    (st : List Agent) (j : ℕ)
    (hch : (others.foldl (hunterStep selfIdx) (a, st)).2.getD j default
            ≠ st.getD j default) :
    j ∈ others ∧ j ≠ selfIdx ∧
      dsq (a.posx, a.posy)
        ((st.getD j default).posx, (st.getD j default).posy) < 400 := by
  induction others generalizing a st with
  | nil => exact absurd rfl hch
  | cons o os ih =>
    rw [List.foldl_cons] at hch
    by_cases hguard : o ≠ selfIdx ∧
        dsq (a.posx, a.posy)
          ((st.getD o default).posx, (st.getD o default).posy) < 400
    · by_cases hjo : j = o
      · subst hjo
        exact ⟨List.mem_cons_self _ _, hguard.1, hguard.2⟩
      · rcases hpair : hunterStep selfIdx (a, st) o with ⟨a1, st1⟩
        rw [hpair] at hch
        have hst1j : st1.getD j default = st.getD j default := by
          have h := hunterStep_store_other selfIdx a st o hjo default
          rw [hpair] at h
          exact h
        have hch2 : (os.foldl (hunterStep selfIdx) (a1, st1)).2.getD j default
            ≠ st1.getD j default := by
          rw [hst1j]
          exact hch
        obtain ⟨hm, hn, hd⟩ := ih a1 st1 hch2
        refine ⟨List.mem_cons_of_mem _ hm, hn, ?_⟩
        obtain ⟨hp1, hp2, -, -, -⟩ := hunterStep_self_pos selfIdx a st o
        rw [hpair] at hp1 hp2
        rw [hp1, hp2, hst1j] at hd
        exact hd
    · rw [hunterStep_guard_false selfIdx a st o hguard] at hch
      obtain ⟨hm, hn, hd⟩ := ih a st hch
      exact ⟨List.mem_cons_of_mem _ hm, hn, hd⟩

theorem hunterPhase_self_thirst (a : Agent) (selfIdx : ℕ) (others : List ℕ)
    (st : List Agent) :
    (a.hunterPhase selfIdx others st).1.thirst = a.thirst := by
  unfold hunterPhase
  split_ifs with h
  · exact (hunterFold_self selfIdx others a st).2.2.1
  · rfl

theorem hunterPhase_self_alive (a : Agent) (selfIdx : ℕ) (others : List ℕ)
    (st : List Agent) :
    (a.hunterPhase selfIdx others st).1.alive = a.alive := by
  unfold hunterPhase
  split_ifs with h
  · exact (hunterFold_self selfIdx others a st).2.2.2.1
  · rfl

theorem hunterPhase_nil (a : Agent) (selfIdx : ℕ) (st : List Agent) :
    a.hunterPhase selfIdx [] st = (a, st) := by
  unfold hunterPhase
  split_ifs <;> rfl

/-- Metabolism strictly decreases energy for positive dt, whatever the
controller outputs. -/
theorem metabolism_energy_lt (b : Agent) (th ro dt : ℚ) (hdt : 0 < dt) :
    (b.metabolism th ro dt).energy < b.energy := by
  unfold metabolism
  dsimp only
  have habs : (0:ℚ) ≤ (|th| + |ro|) * 0.01 :=
    mul_nonneg (add_nonneg (abs_nonneg th) (abs_nonneg ro)) (by norm_num)
  have hde : (0:ℚ) < config.DECAY_ENERGY := by norm_num [config.DECAY_ENERGY]
  have hmult : (0:ℚ) < (if b.archetype = Archetype.EXPLORER then (1.2:ℚ) else 1) := by
    split_ifs <;> norm_num
  have hpos : (0:ℚ) < (config.DECAY_ENERGY + (|th| + |ro|) * 0.01) *
      (if b.archetype = Archetype.EXPLORER then (1.2:ℚ) else 1) * dt :=
    mul_pos (mul_pos (by linarith) hmult) hdt
  linarith

/-- Metabolism strictly decreases thirst for positive dt. -/
theorem metabolism_thirst_lt (b : Agent) (th ro dt : ℚ) (hdt : 0 < dt) :
    (b.metabolism th ro dt).thirst < b.thirst := by
  unfold metabolism
  dsimp only
  have hdth : (0:ℚ) < config.DECAY_THIRST := by norm_num [config.DECAY_THIRST]
  have hmult : (0:ℚ) < (if b.archetype = Archetype.EXPLORER then (1.2:ℚ) else 1) := by
    split_ifs <;> norm_num
  have hpos : (0:ℚ) < config.DECAY_THIRST *
      (if b.archetype = Archetype.EXPLORER then (1.2:ℚ) else 1) * dt :=
    mul_pos (mul_pos hdth hmult) hdt
  linarith

end Agent

/-- Claim C1 (amended): per tick, energy decays by
(DECAY_ENERGY + (|thrust| + |rotation|)·0.01)·mult·dt where mult is 1.2 for
Explorers and 1.0 otherwise — but thirst decays by DECAY_THIRST·mult·dt with
NO movement-cost term; after one tick with no sensed resources and positive
dt, thirst strictly decreases, and energy strictly decreases as well provided
the predation phase grants no energy (in particular when no other agents are
visible). -/
theorem claim_C1_metabolism_decay (ops : MathOps) (selfIdx : ℕ) (a : Agent)
    (dt thrust rotate : ℚ) (others : List ℕ) (store : List Agent)
    (hdt : 0 < dt) :
    ((a.metabolism thrust rotate dt).energy
      = a.energy - (config.DECAY_ENERGY + (|thrust| + |rotate|) * 0.01) *
          (if a.archetype = Archetype.EXPLORER then 1.2 else 1) * dt) ∧
    ((a.metabolism thrust rotate dt).thirst
      = a.thirst - config.DECAY_THIRST *
          (if a.archetype = Archetype.EXPLORER then 1.2 else 1) * dt) ∧
    ((Agent.update ops selfIdx a dt [] [] others store).1.thirst < a.thirst) ∧
    ((Agent.update ops selfIdx a dt [] [] [] store).1.energy < a.energy) := by
  refine ⟨rfl, rfl, ?_, ?_⟩
  · unfold Agent.update
    dsimp only
    rw [Agent.hunterPhase_self_thirst]
    exact lt_of_lt_of_eq (Agent.metabolism_thirst_lt _ _ _ dt hdt) rfl
  · unfold Agent.update
    dsimp only
    rw [Agent.hunterPhase_nil]
    exact lt_of_lt_of_eq (Agent.metabolism_energy_lt _ _ _ dt hdt) rfl

theorem gatherer_ne_explorer : (Archetype.GATHERER = Archetype.EXPLORER) ↔ False := by
  simp

theorem hunter_ne_explorer : (Archetype.HUNTER = Archetype.EXPLORER) ↔ False := by
  simp

theorem gatherer_ne_hunter : (Archetype.GATHERER = Archetype.HUNTER) ↔ False := by
  simp

theorem explorer_ne_hunter : (Archetype.EXPLORER = Archetype.HUNTER) ↔ False := by
  simp

/-- A freshly initialized network whose uniform(-1,1) weight draws all came
out 0: it outputs (tanh 0, tanh 0) = (0, 0) whatever its inputs. -/
def zeroBrain6 : NeuralNetwork := NeuralNetwork.fresh (fun _ _ => 0) (fun _ _ => 0)

/-- Interpretation of the transcendental functions used by the concrete
traces below.  In those traces every brain has all-zero weights, so the
values of sqrt/atan2deg (which only flow into network inputs) never influence
any output, and tanh is only ever applied to 0, where `tanh 0 = 0` agrees
with the real function; every heading stays 0 (rotation output is 0), so
cosD/sinD are only applied to 0, where `cos 0 = 1` and `sin 0 = 0` agree
with the real functions.  Hence each concrete trace below coincides with the
trace of the real program. -/
def ops0 : MathOps where
  sqrt := fun _ => 0
  atan2deg := fun _ _ => 0
  cosD := fun _ => 1
  sinD := fun _ => 0
  tanh := fun _ => 0

/-- Concrete Gatherer agent (hunter_factor and exploration_drive ½ ≤ 0.7). -/
def agC1 : Agent where
  posx := 100
  posy := 100
  angle := 0
  brain := zeroBrain6
  gen := 1
  energy := 80
  thirst := 50
  alive := true
  age := 5
  dna_speed := 1
  dna_sense := 300
  dna_hunter_factor := 1/2
  dna_exploration_drive := 1/2
  archetype := Archetype.GATHERER
  lastOut0 := 0
  lastOut1 := 0

/-- Concrete Hunter agent (hunter_factor 0.8 > 0.7) with energy 50 < 70. -/
def hunterC1 : Agent where
  posx := 100
  posy := 100
  angle := 0
  brain := zeroBrain6
  gen := 1
  energy := 50
  thirst := 80
  alive := true
  age := 5
  dna_speed := 1
  dna_sense := 300
  dna_hunter_factor := 0.8
  dna_exploration_drive := 1/2
  archetype := Archetype.HUNTER
  lastOut0 := 0
  lastOut1 := 0

/-- Concrete live victim within capture radius of hunterC1 after its move. -/
def victimC1 : Agent where
  posx := 102
  posy := 100
  angle := 0
  brain := zeroBrain6
  gen := 1
  energy := 50
  thirst := 80
  alive := true
  age := 5
  dna_speed := 1
  dna_sense := 300
  dna_hunter_factor := 1/2
  dna_exploration_drive := 1/2
  archetype := Archetype.GATHERER
  lastOut0 := 0
  lastOut1 := 0

/-- Counterexample to claim C1 as stated: the thirst decay carries NO
movement-cost term — it is identical for controller outputs (½, 0) and
(0, 0) and differs from the claimed
(DECAY_THIRST + (|thrust|+|rotation|)·0.01)·mult·dt — and energy need not
decrease after a tick with no sensed resources: a Hunter with a victim in
capture range gains net energy. -/
theorem claim_C1_counterexample :
    ((agC1.metabolism (1/2) 0 1).thirst = (agC1.metabolism 0 0 1).thirst) ∧
    ((agC1.metabolism (1/2) 0 1).thirst
      ≠ agC1.thirst - (config.DECAY_THIRST + (|(1/2 : ℚ)| + |(0 : ℚ)|) * 0.01)
          * 1 * 1) ∧
    ((Agent.update ops0 0 hunterC1 1 [] [] [1] [hunterC1, victimC1]).1.energy
      > hunterC1.energy) := by
  refine ⟨by norm_num [Agent.metabolism, agC1], ?_, ?_⟩
  · have habs : |(1:ℚ)/2| = 1/2 := by norm_num
    norm_num [Agent.metabolism, agC1, config.DECAY_THIRST, gatherer_ne_explorer,
      habs]
  · norm_num [Agent.update, Agent.senseNearest, Agent.metabolism,
      Agent.hunterPhase, Agent.hunterStep, NeuralNetwork.predict,
      NeuralNetwork.fresh, NeuralNetwork.num_in, NeuralNetwork.num_out,
      zeroBrain6, ops0, hunterC1, victimC1, qmod, dsq, config.HID_NODES,
      config.WORLD_W, config.WORLD_H, config.DECAY_ENERGY, config.DECAY_THIRST,
      List.range_succ, min_def, gatherer_ne_explorer, hunter_ne_explorer,
      gatherer_ne_hunter]

/-- Witness for the amended C1 at a concrete agent and tick. -/
theorem claim_C1_witness :
    (Agent.update ops0 0 agC1 1 [] [] [] []).1.energy < agC1.energy ∧
    (Agent.update ops0 0 agC1 1 [] [] [] []).1.thirst < agC1.thirst :=
  ⟨(claim_C1_metabolism_decay ops0 0 agC1 1 0 0 [] [] (by norm_num)).2.2.2,
   (claim_C1_metabolism_decay ops0 0 agC1 1 0 0 [] [] (by norm_num)).2.2.1⟩

/-- Claim C4 (amended): the predation phase runs only for Hunter-archetype
agents with (post-metabolism) energy below 70; every attack hits another
agent (not the attacker itself) within the fixed capture radius of squared
distance 400 — whether or not that agent is still alive; each attack always
succeeds: the victim loses a fixed 40 energy, the attacker's energy is set to
min(100, energy + 30), and the victim's liveness flag is cleared exactly when
its energy is now at or below zero. -/
theorem claim_C4_predation_rules (a : Agent) (selfIdx : ℕ) (others : List ℕ)
    (store : List Agent) :
    (¬ (a.archetype = Archetype.HUNTER ∧ a.energy < 70) →
      a.hunterPhase selfIdx others store = (a, store)) ∧
    (∀ j, (a.hunterPhase selfIdx others store).2.getD j default
            ≠ store.getD j default →
      j ∈ others ∧ j ≠ selfIdx ∧
        dsq (a.posx, a.posy)
          ((store.getD j default).posx, (store.getD j default).posy) < 400) ∧
    (∀ (b : Agent) (st : List Agent) (oid : ℕ), oid < st.length →
      oid ≠ selfIdx →
      dsq (b.posx, b.posy)
          ((st.getD oid default).posx, (st.getD oid default).posy) < 400 →
      (Agent.hunterStep selfIdx (b, st) oid).1.energy
          = min 100 (b.energy + 30) ∧
      ((Agent.hunterStep selfIdx (b, st) oid).2.getD oid default).energy
          = (st.getD oid default).energy - 40 ∧
      ((Agent.hunterStep selfIdx (b, st) oid).2.getD oid default).alive
          = (if (st.getD oid default).energy - 40 ≤ 0 then false
             else (st.getD oid default).alive)) := by
  refine ⟨?_, ?_, ?_⟩
  · intro h
    unfold Agent.hunterPhase
    rw [if_neg h]
  · intro j hch
    unfold Agent.hunterPhase at hch
    split_ifs at hch with hg
    · exact Agent.hunterFold_change selfIdx others a store j hch
    · exact absurd rfl hch
  · intro b st oid hlen hne hdist
    unfold Agent.hunterStep
    dsimp only
    rw [if_pos ⟨hne, hdist⟩]
    refine ⟨rfl, ?_, ?_⟩ <;>
      · rw [getD_set_self _ _ hlen]
        split_ifs <;> rfl

/-- Concrete victim that is already dead (liveness flag cleared). -/
def deadVictimC4 : Agent := { victimC1 with alive := false }

/-- Counterexample to claim C4 as stated: an attack does NOT require a live
victim — a Hunter below the energy threshold attacks an agent whose liveness
flag is already false, draining 40 energy from the corpse. -/
theorem claim_C4_counterexample :
    deadVictimC4.alive = false ∧
    ((hunterC1.hunterPhase 0 [1] [hunterC1, deadVictimC4]).2.getD 1 default
        ≠ [hunterC1, deadVictimC4].getD 1 default) ∧
    (((hunterC1.hunterPhase 0 [1] [hunterC1, deadVictimC4]).2.getD 1
        default).energy = deadVictimC4.energy - 40) := by
  refine ⟨rfl, ?_, ?_⟩ <;>
    norm_num [Agent.hunterPhase, Agent.hunterStep, dsq, hunterC1, victimC1,
      deadVictimC4, Agent.mk.injEq, min_def]

/-- Witness for the amended C4: a Gatherer performs no predation, and a valid
attack applies the fixed energy transfer. -/
theorem claim_C4_witness :
    (agC1.hunterPhase 0 [1] [agC1, victimC1] = (agC1, [agC1, victimC1])) ∧
    ((Agent.hunterStep 0 (hunterC1, [hunterC1, victimC1]) 1).1.energy
        = min 100 (hunterC1.energy + 30)) :=
  ⟨(claim_C4_predation_rules agC1 0 [1] [agC1, victimC1]).1
      (by simp [agC1]),
   ((claim_C4_predation_rules hunterC1 0 [1] [hunterC1, victimC1]).2.2
      hunterC1 [hunterC1, victimC1] 1 (by norm_num) (by norm_num)
      (by norm_num [dsq, hunterC1, victimC1])).1⟩

/-- Resource kind of src/core/world.py ('food' or 'water'). -/
inductive RType
  | food
  | water
deriving DecidableEq

/-- src/core/world.py Resource, together with its membership in the
simulation's live set: `active` is Resource.active, `present` records whether
the object is (still) a member of the Python set Simulation.resources. -/
structure ResState where
  posx : ℚ
  posy : ℚ
  rtype : RType
  active : Bool
  present : Bool
deriving DecidableEq

instance : Inhabited ResState where
  default := { posx := 0, posy := 0, rtype := RType.food,
               active := false, present := false }

/-- src/core/world.py Spawner (fixed position, radius and kind). -/
structure Spawner where
  posx : ℚ
  posy : ℚ
  radius : ℚ
  rtype : RType

instance : Inhabited Spawner where
  default := { posx := 0, posy := 0, radius := 0, rtype := RType.food }

/-- Spawner.spawn: a fresh active Resource at the spawner position plus a
polar offset (angle and distance drawn uniformly), wrapped to world bounds. -/
def Spawner.spawn (ops : MathOps) (s : Spawner) (angle dist : ℚ) : ResState where
  posx := qmod (s.posx + dist * ops.cosD angle) config.WORLD_W
  posy := qmod (s.posy + dist * ops.sinD angle) config.WORLD_H
  rtype := s.rtype
  active := true
  present := true

/-- Entities held by the per-tick spatial grid: indices into the resource
store and the agent roster (Python stores the aliased objects themselves). -/
inductive Ent
  | res (k : ℕ)
  | ag (i : ℕ)
deriving DecidableEq

/-- The `.pos` attribute of a grid entity, resolved through the tick-start
stores (buckets are computed from the positions at insertion time). -/
def entPos (agents : List Agent) (resources : List ResState) : Ent → ℚ × ℚ
  | Ent.res k => ((resources.getD k default).posx, (resources.getD k default).posy)
  | Ent.ag i => ((agents.getD i default).posx, (agents.getD i default).posy)

/-- src/core/simulation.py Simulation state (the fields the per-tick logic
reads and writes; analytics history and control flags are rendering-side). -/
structure SimState where
  agents : List Agent
  resources : List ResState
  spawners : List Spawner
  heatmap : (ℤ × ℤ) → ℕ
  max_gen : ℕ

/-- The random draws one agent iteration of Simulation._step consumes. -/
structure StepAgentRand where
  heatRoll : ℚ
  reproRoll : ℚ
  rr : Agent.ReproRand

/-- The random draws one Simulation._step consumes: five fresh-agent draws
for the population floor, per-agent iteration draws, and the resource
regeneration draws. -/
structure StepRand where
  freshDraws : ℕ → Agent.FreshRand
  agentRand : ℕ → StepAgentRand
  regenRoll : ℚ
  spawnerIdx : ℕ
  spawnAngle : ℚ
  spawnDist : ℚ

/-- The state threaded through the per-agent loop of Simulation._step.
`events` instruments resource consumption: it records one `(agentIdx,
resourceIdx)` pair per successful food consumption (the source has no such
list; it is a pure observer used to state the exclusivity claim). -/
structure LoopState where
  agStore : List Agent
  resStore : List ResState
  new_agents : List Agent
  activeIdx : List ℕ
  heatmap : (ℤ × ℤ) → ℕ
  events : List (ℕ × ℕ)
  max_gen : ℕ

/-- Python `int(q)` (truncation toward zero). -/
def intTrunc (q : ℚ) : ℤ := if 0 ≤ q then ⌊q⌋ else -⌊-q⌋

/-- simulation.py lines 124–127: probabilistic heatmap sampling at the
agent's (pre-update) position. -/
def bumpHeat (h : (ℤ × ℤ) → ℕ) (pos : ℚ × ℚ) : (ℤ × ℤ) → ℕ :=
  let hx := intTrunc (pos.1 / config.WORLD_W * 50)
  let hy := intTrunc (pos.2 / config.WORLD_H * 50)
  if 0 ≤ hx ∧ hx < 50 ∧ 0 ≤ hy ∧ hy < 50 then
    fun k => if k = (hx, hy) then h k + 1 else h k
  else h

/-- simulation.py lines 136–143: split the grid query result into food /
water / other-agent candidate lists, skipping the agent itself and inactive
resources, preserving order. -/
def partitionNearby (selfIdx : ℕ) (resStore : List ResState) :
    List Ent → List ℕ × List ℕ × List ℕ
  | [] => ([], [], [])
  | e :: rest =>
    let p := partitionNearby selfIdx resStore rest
    match e with
    | Ent.res k =>
        let r := resStore.getD k default
        if r.active = false then p
        else if r.rtype = RType.food then (k :: p.1, p.2.1, p.2.2)
        else (p.1, k :: p.2.1, p.2.2)
    | Ent.ag i => if i = selfIdx then p else (p.1, p.2.1, i :: p.2.2)

/-- simulation.py lines 149–154 (one food item): if the resource is still
active and within squared distance 400 of the agent's (post-update)
position, the agent's energy is set to min(100, energy + 35), the active flag
is cleared and the resource is removed from the live set; the consumption is
recorded in the event list. -/
def consumeStep (apos : ℚ × ℚ) (acc : ℚ × List ResState × List ℕ) (k : ℕ) :
    ℚ × List ResState × List ℕ :=
  let r := acc.2.1.getD k default
  if r.active = true ∧ dsq apos (r.posx, r.posy) < 400 then
    (min 100 (acc.1 + 35),
     acc.2.1.set k { r with active := false, present := false },
     acc.2.2 ++ [k])
  else acc

/-- simulation.py lines 149–154: the food consumption loop. -/
def consumeFood (apos : ℚ × ℚ) (energy : ℚ) (res : List ResState)
    (foodIds : List ℕ) : ℚ × List ResState × List ℕ :=
  foodIds.foldl (consumeStep apos) (energy, res, [])

/-- simulation.py lines 156–158 (one water item): water in range raises
thirst to min(100, thirst + 4·dt); the resource is not modified. -/
def drinkStep (apos : ℚ × ℚ) (res : List ResState) (dt t : ℚ) (k : ℕ) : ℚ :=
  let r := res.getD k default
  if dsq apos (r.posx, r.posy) < 400 then min 100 (t + 4 * dt) else t

/-- simulation.py lines 156–158: the water loop. -/
def drinkWater (apos : ℚ × ℚ) (t : ℚ) (res : List ResState) (dt : ℚ)
    (waterIds : List ℕ) : ℚ :=
  waterIds.foldl (drinkStep apos res dt) t

/-- One iteration of the per-agent loop of Simulation._step (lines 118–171):
skip dead agents, maybe sample the heatmap, query the grid, partition,
run Agent.update, consume food and water, maybe reproduce, and collect the
index if still alive.  `nAgents` is len(self.agents) (constant during the
loop).  No phase after the initial liveness test consults the alive flag
again. -/
def processAgent (ops : MathOps) (dt : ℚ) (grid : SpatialGrid Ent)
    (nAgents : ℕ) (st : LoopState) (ir : ℕ × StepAgentRand) : LoopState :=
  let i := ir.1
  let r := ir.2
  let a := st.agStore.getD i default
  if a.alive = false then st
  else
    let heat1 := if r.heatRoll < 0.2 then bumpHeat st.heatmap (a.posx, a.posy)
                 else st.heatmap
    let nearby := grid.get_nearby (a.posx, a.posy) a.dna_sense
    let p := partitionNearby i st.resStore nearby
    let food := p.1
    let water := p.2.1
    let others := p.2.2
    let foodPos := food.map fun k =>
      ((st.resStore.getD k default).posx, (st.resStore.getD k default).posy)
    let waterPos := water.map fun k =>
      ((st.resStore.getD k default).posx, (st.resStore.getD k default).posy)
    let u := Agent.update ops i a dt foodPos waterPos others st.agStore
    let a1 := u.1
    let agStore1 := u.2
    let c := consumeFood (a1.posx, a1.posy) a1.energy st.resStore food
    let a2 := { a1 with energy := c.1 }
    let resStore1 := c.2.1
    let evNew := c.2.2
    let a3 := { a2 with
      thirst := drinkWater (a2.posx, a2.posy) a2.thirst resStore1 dt water }
    let rep :=
      if a3.energy > config.REPRO_THRESHOLD then
        if r.reproRoll < 0.005 * (1 - (nAgents : ℚ) / (config.MAX_POP : ℚ)) then
          let a4 := { a3 with energy := a3.energy - config.REPRO_COST }
          let child := a4.reproduce r.rr
          (a4, st.new_agents ++ [child], max st.max_gen child.gen)
        else (a3, st.new_agents, st.max_gen)
      else (a3, st.new_agents, st.max_gen)
    let a5 := rep.1
    { agStore := agStore1.set i a5,
      resStore := resStore1,
      new_agents := rep.2.1,
      activeIdx := if a5.alive = true then st.activeIdx ++ [i] else st.activeIdx,
      heatmap := heat1,
      events := st.events ++ evNew.map fun k => (i, k),
      max_gen := rep.2.2 }

/-- The whole per-agent loop of one tick. -/
def runLoop (ops : MathOps) (dt : ℚ) (grid : SpatialGrid Ent) (nAgents : ℕ)
    (sr : StepRand) (init : LoopState) (idxs : List ℕ) : LoopState :=
  idxs.foldl (fun s i => processAgent ops dt grid nAgents s (i, sr.agentRand i)) init

/-- simulation.py lines 111–112: if the roster is below MIN_POP at the start
of the tick, extend it by 5 freshly generated agents. -/
def seedAgents (agents : List Agent) (sr : StepRand) : List Agent :=
  if agents.length < config.MIN_POP then
    agents ++ (List.range 5).map fun n => Agent.fresh (sr.freshDraws n)
  else agents

/-- simulation.py line 174: survivors (by reference, hence through the final
store) followed by this tick's offspring. -/
def collectAgents (fin : LoopState) : List Agent :=
  (fin.activeIdx.map fun i => fin.agStore.getD i default) ++ fin.new_agents

/-- simulation.py lines 177–179: if over MAX_POP, sort by ascending age and
keep the youngest MAX_POP. -/
def enforceCeiling (l : List Agent) : List Agent :=
  if l.length > config.MAX_POP then
    (l.mergeSort fun x y => decide (x.age ≤ y.age)).take config.MAX_POP
  else l

/-- Simulation._step: grid rebuild from the tick-start stores (live resources
first, then all agents), population floor seeding, the per-agent loop,
roster replacement, ceiling enforcement and resource regeneration. -/
def stepSim (ops : MathOps) (st : SimState) (dt : ℚ) (sr : StepRand) : SimState :=
  let presentIdx := (List.range st.resources.length).filter fun k =>
    (st.resources.getD k default).present
  let grid1 := (SpatialGrid.init Ent config.WORLD_W config.WORLD_H
      config.GRID_CELL_SIZE).insertAll (entPos st.agents st.resources)
      ((presentIdx.map Ent.res) ++ ((List.range st.agents.length).map Ent.ag))
  let agents1 := seedAgents st.agents sr
  let init : LoopState :=
    { agStore := agents1, resStore := st.resources, new_agents := [],
      activeIdx := [], heatmap := st.heatmap, events := [],
      max_gen := st.max_gen }
  let fin := runLoop ops dt grid1 agents1.length sr init
    (List.range agents1.length)
  let agents3 := enforceCeiling (collectAgents fin)
  let nRes := (fin.resStore.filter fun r => r.present).length
  let resources1 :=
    if nRes < 600 then
      if sr.regenRoll < 0.5 then
        fin.resStore ++ [(st.spawners.getD sr.spawnerIdx default).spawn ops
          sr.spawnAngle sr.spawnDist]
      else fin.resStore
    else fin.resStore
  { agents := agents3, resources := resources1, spawners := st.spawners,
    heatmap := fin.heatmap, max_gen := fin.max_gen }

theorem enforceCeiling_le (l : List Agent) :
    (enforceCeiling l).length ≤ config.MAX_POP := by
  unfold enforceCeiling
  split_ifs with h
  · rw [List.length_take]
    exact min_le_left _ _
  · omega

/-- Claim C5 (amended): after every tick the population never exceeds
MAX_POP, and when the ceiling is exceeded the roster is sorted by ascending
age and truncated, so every kept agent is no older than every discarded one;
when the tick-start roster is below MIN_POP, exactly 5 freshly generated
generation-1 agents (fresh energy/thirst/age, alive) are injected in that
tick — which need NOT restore the population to the floor within that tick. -/
theorem claim_C5_population_bounds (ops : MathOps) (st : SimState) (dt : ℚ)
    (sr : StepRand) :
    (stepSim ops st dt sr).agents.length ≤ config.MAX_POP ∧
    (∀ l : List Agent, l.length > config.MAX_POP →
      enforceCeiling l
          = (l.mergeSort fun x y => decide (x.age ≤ y.age)).take config.MAX_POP ∧
      ∀ x ∈ (l.mergeSort fun x y => decide (x.age ≤ y.age)).take config.MAX_POP,
        ∀ y ∈ (l.mergeSort fun x y => decide (x.age ≤ y.age)).drop config.MAX_POP,
          x.age ≤ y.age) ∧
    (st.agents.length < config.MIN_POP →
      (seedAgents st.agents sr).length = st.agents.length + 5 ∧
      ∀ b ∈ (List.range 5).map fun n => Agent.fresh (sr.freshDraws n),
        b.gen = 1 ∧ b.energy = 100 ∧ b.thirst = 100 ∧ b.age = 0 ∧
          b.alive = true) := by
  refine ⟨?_, ?_, ?_⟩
  · unfold stepSim
    dsimp only
    exact enforceCeiling_le _
  · intro l hl
    constructor
    · unfold enforceCeiling
      rw [if_pos hl]
    · have htrans : ∀ x y z : Agent, decide (x.age ≤ y.age) = true →
          decide (y.age ≤ z.age) = true → decide (x.age ≤ z.age) = true := by
        intro x y z hxy hyz
        simp only [decide_eq_true_eq] at hxy hyz ⊢
        exact le_trans hxy hyz
      have htot : ∀ x y : Agent,
          (decide (x.age ≤ y.age) || decide (y.age ≤ x.age)) = true := by
        intro x y
        rcases le_total x.age y.age with h | h <;> simp [h]
      have hp := List.sorted_mergeSort htrans htot l
      have hp2 : List.Pairwise (fun x y : Agent => x.age ≤ y.age)
          (l.mergeSort fun x y => decide (x.age ≤ y.age)) :=
        hp.imp fun h => by simpa using h
      intro x hx y hy
      have hjoin : List.Pairwise (fun x y : Agent => x.age ≤ y.age)
          ((l.mergeSort fun x y => decide (x.age ≤ y.age)).take config.MAX_POP
            ++ (l.mergeSort fun x y => decide (x.age ≤ y.age)).drop
                config.MAX_POP) := by
        rw [List.take_append_drop]
        exact hp2
      exact (List.pairwise_append.mp hjoin).2.2 x hx y hy
  · intro hlt
    constructor
    · unfold seedAgents
      rw [if_pos hlt]
      simp
    · intro b hb
      rcases List.mem_map.mp hb with ⟨n, -, rfl⟩
      exact ⟨rfl, rfl, rfl, rfl, rfl⟩

/-- Fresh-agent draws for the below-floor scenario: isolated Gatherers with
minimal legal sensing radius (300), zero-weight brains, heading 0. -/
def seedFreshC5 (n : ℕ) : Agent.FreshRand where
  posx := 2000 + 600 * n
  posy := 3000
  angle := 0
  ihW := fun _ _ => 0
  hoW := fun _ _ => 0
  speed := 1
  sense := 300
  hunter_factor := 1/2
  exploration_drive := 1/2

/-- Reproduction draws that are never consumed in the scenarios using them
(the reproduction roll fails), with all rolls in the middle of their
ranges. -/
def rrIdle : Agent.ReproRand where
  mr := { ihRoll := fun _ _ => 1/2, ihNoise := fun _ _ => 0,
          hoRoll := fun _ _ => 1/2, hoNoise := fun _ _ => 0,
          structRoll := 1/2, coin := 1/2,
          newIhW := fun _ => 0, newHoW := fun _ => 0 }
  noise_speed := 0
  noise_sense := 0
  noise_hunter := 0
  noise_explore := 0
  offx := 5
  offy := 5
  angleDraw := 0
  posDrawx := 2000
  posDrawy := 2000

/-- Tick draws: heatmap sampling skipped (roll ½ ≥ 0.2), reproduction roll
0.9 fails, resource regeneration roll 1 fails. -/
def srC5 : StepRand where
  freshDraws := seedFreshC5
  agentRand := fun _ => { heatRoll := 1/2, reproRoll := 9/10, rr := rrIdle }
  regenRoll := 1
  spawnerIdx := 0
  spawnAngle := 0
  spawnDist := 0

/-- A reachable near-extinct state: one live Gatherer, no resources. -/
def stC5 : SimState where
  agents := [agC1]
  resources := []
  spawners := []
  heatmap := fun _ => 0
  max_gen := 1

set_option maxHeartbeats 2000000 in
/-- Counterexample to claim C5 as stated: a population floor breach is NOT
corrected in the tick it is detected.  From one live agent, the tick injects
only 5 fresh agents: the population is 6 < MIN_POP = 20 after the first tick
and 11 < 20 after the second, with no extinction — it stays below the floor
for more than one tick. -/
theorem claim_C5_counterexample :
    (stepSim ops0 stC5 1 srC5).agents.length = 6 ∧
    (stepSim ops0 (stepSim ops0 stC5 1 srC5) 1 srC5).agents.length = 11 ∧
    6 < config.MIN_POP ∧ 11 < config.MIN_POP := by
  refine ⟨?_, ?_, by norm_num [config.MIN_POP], by norm_num [config.MIN_POP]⟩ <;>
    norm_num [stepSim, seedAgents, runLoop, processAgent, collectAgents,
      enforceCeiling, partitionNearby, consumeFood, consumeStep, drinkWater,
      drinkStep, Agent.update, Agent.senseNearest, Agent.metabolism,
      Agent.hunterPhase, Agent.hunterStep, Agent.fresh, Agent.make,
      archetypeOf, NeuralNetwork.predict, NeuralNetwork.fresh,
      NeuralNetwork.num_in, NeuralNetwork.num_out, entPos, SpatialGrid.init,
      SpatialGrid.insertAll, SpatialGrid.insert, SpatialGrid.get_key,
      SpatialGrid.get_nearby, intRangeList, intRangeAux, qmod, dsq,
      zeroBrain6, ops0, stC5, srC5, seedFreshC5, rrIdle, agC1,
      config.MIN_POP, config.MAX_POP, config.WORLD_W, config.WORLD_H,
      config.GRID_CELL_SIZE, config.HID_NODES, config.DECAY_ENERGY,
      config.DECAY_THIRST, config.REPRO_THRESHOLD, config.REPRO_COST,
      config.BASE_STAT, List.range_succ, Int.reduceToNat, min_def,
      gatherer_ne_explorer, hunter_ne_explorer, gatherer_ne_hunter]

/-- Witness for the amended C5: the ceiling bound and the seeding count at a
concrete state and draw. -/
theorem claim_C5_witness :
    (stepSim ops0 stC5 1 srC5).agents.length ≤ config.MAX_POP ∧
    (seedAgents stC5.agents srC5).length = stC5.agents.length + 5 :=
  ⟨(claim_C5_population_bounds ops0 stC5 1 srC5).1,
   ((claim_C5_population_bounds ops0 stC5 1 srC5).2.2
      (by norm_num [stC5, config.MIN_POP])).1⟩

/-- The predation fold is blind to the attacker's liveness flag: running it
with the flag cleared gives the same store effects and the same attacker
fields apart from the flag itself. -/
theorem hunterFold_alive_blind (selfIdx : ℕ) (others : List ℕ) (a : Agent)
    (st : List Agent) (b : Bool) :
    others.foldl (Agent.hunterStep selfIdx) ({ a with alive := b }, st)
      = ({ (others.foldl (Agent.hunterStep selfIdx) (a, st)).1 with alive := b },
         (others.foldl (Agent.hunterStep selfIdx) (a, st)).2) := by
  induction others generalizing a st with
  | nil => rfl
  | cons o os ih =>
    rw [List.foldl_cons, List.foldl_cons]
    have hstep : Agent.hunterStep selfIdx ({ a with alive := b }, st) o
        = ({ (Agent.hunterStep selfIdx (a, st) o).1 with alive := b },
           (Agent.hunterStep selfIdx (a, st) o).2) := by
      unfold Agent.hunterStep
      dsimp only
      split_ifs <;> rfl
    rw [hstep]
    rcases hp : Agent.hunterStep selfIdx (a, st) o with ⟨a1, st1⟩
    exact ih a1 st1

theorem hunterStep_store_length (selfIdx : ℕ) (a : Agent) (st : List Agent)
    (oid : ℕ) : (Agent.hunterStep selfIdx (a, st) oid).2.length = st.length := by
  unfold Agent.hunterStep
  dsimp only
  split_ifs <;> simp [List.length_set]

theorem hunterFold_store_length (selfIdx : ℕ) (others : List ℕ) (a : Agent)
    (st : List Agent) :
    (others.foldl (Agent.hunterStep selfIdx) (a, st)).2.length = st.length := by
  induction others generalizing a st with
  | nil => rfl
  | cons o os ih =>
    rw [List.foldl_cons]
    rcases hp : Agent.hunterStep selfIdx (a, st) o with ⟨a1, st1⟩
    have hl := hunterStep_store_length selfIdx a st o
    rw [hp] at hl
    exact (ih a1 st1).trans hl

theorem hunterPhase_store_length (a : Agent) (selfIdx : ℕ) (others : List ℕ)
    (st : List Agent) :
    (a.hunterPhase selfIdx others st).2.length = st.length := by
  unfold Agent.hunterPhase
  split_ifs
  · exact hunterFold_store_length selfIdx others a st
  · rfl

theorem update_store_length (ops : MathOps) (selfIdx : ℕ) (a : Agent)
    (dt : ℚ) (food water : List (ℚ × ℚ)) (others : List ℕ)
    (store : List Agent) :
    (Agent.update ops selfIdx a dt food water others store).2.length
      = store.length := by
  unfold Agent.update
  dsimp only
  exact hunterPhase_store_length _ _ _ _

/-- Claim C2 (amended): when energy or thirst reaches zero or below during
metabolism, the liveness flag is cleared immediately; the agent is not
removed mid-step (the roster length is untouched by every loop iteration,
and an agent dead before its own iteration is skipped entirely); but a
freshly dead agent is NOT prevented from acting in the remainder of its own
tick: the predation phase is blind to the attacker's liveness flag, and the
post-pipeline consumption and reproduction phases never consult it (see the
counterexample for a dead agent that attacks, eats, drinks and reproduces). -/
theorem claim_C2_death_semantics (ops : MathOps) (dt : ℚ)
    (grid : SpatialGrid Ent) (nA : ℕ) (st : LoopState) (i : ℕ)
    (r : StepAgentRand) (a : Agent) (selfIdx : ℕ) (others : List ℕ)
    (store : List Agent) (b : Bool) (th ro : ℚ) :
    (((a.metabolism th ro dt).energy ≤ 0 ∨ (a.metabolism th ro dt).thirst ≤ 0) →
      (a.metabolism th ro dt).alive = false) ∧
    ((processAgent ops dt grid nA st (i, r)).agStore.length
      = st.agStore.length) ∧
    ((st.agStore.getD i default).alive = false →
      processAgent ops dt grid nA st (i, r) = st) ∧
    (Agent.hunterPhase { a with alive := b } selfIdx others store
      = ({ (a.hunterPhase selfIdx others store).1 with alive := b },
         (a.hunterPhase selfIdx others store).2)) := by
  refine ⟨?_, ?_, ?_, ?_⟩
  · intro h
    unfold Agent.metabolism at h ⊢
    dsimp only at h ⊢
    rw [if_pos h]
  · unfold processAgent
    dsimp only
    by_cases hdead : (st.agStore.getD i default).alive = false
    · rw [if_pos hdead]
    · rw [if_neg hdead]
      dsimp only
      rw [List.length_set, update_store_length]
  · intro h
    unfold processAgent
    dsimp only
    rw [if_pos h]
  · unfold Agent.hunterPhase
    dsimp only
    split_ifs with h
    · exact hunterFold_alive_blind selfIdx others a store b
    · rfl

theorem water_ne_food : (RType.water = RType.food) ↔ False := by simp

theorem food_ne_water : (RType.food = RType.water) ↔ False := by simp

/-- A Hunter with energy 69 (below the 70 attack threshold) about to die of
thirst: 0.005 thirst is wiped out by the 0.02 per-tick decay. -/
def hunterC2 : Agent := { hunterC1 with energy := 69, thirst := 1/200 }

/-- An active food resource within capture range of hunterC2's post-move
position. -/
def foodC2 : ResState where
  posx := 102
  posy := 101
  rtype := RType.food
  active := true
  present := true

/-- An active water resource within capture range of hunterC2's post-move
position. -/
def waterC2 : ResState where
  posx := 103
  posy := 100
  rtype := RType.water
  active := true
  present := true

/-- The tick-start grid of the C2 scenario: both resources, then both
agents. -/
def gridC2 : SpatialGrid Ent :=
  (SpatialGrid.init Ent config.WORLD_W config.WORLD_H
    config.GRID_CELL_SIZE).insertAll (entPos [hunterC2, victimC1] [foodC2, waterC2])
    [Ent.res 0, Ent.res 1, Ent.ag 0, Ent.ag 1]

/-- Iteration draws for the C2 scenario: heatmap sampling skipped, the
reproduction roll 0.004 succeeds (threshold 0.005·(1 - 2/150) ≈ 0.00493). -/
def sarC2 : StepAgentRand where
  heatRoll := 1/2
  reproRoll := 1/250
  rr := rrIdle

/-- Loop state at hunterC2's iteration. -/
def stLC2 : LoopState where
  agStore := [hunterC2, victimC1]
  resStore := [foodC2, waterC2]
  new_agents := []
  activeIdx := []
  heatmap := fun _ => 0
  events := []
  max_gen := 1

set_option maxHeartbeats 2000000 in
/-- Counterexample to claim C2 as stated: an agent whose thirst hits zero
during metabolism has its flag cleared immediately, but then still acts for
the rest of its own tick: it attacks the victim (−40 energy), consumes the
food resource (removed from the live set), drinks the water, and reproduces
— only the survivor collection at the end excludes it. -/
theorem claim_C2_counterexample :
    (stLC2.agStore.getD 0 default).alive = true ∧
    ((processAgent ops0 1 gridC2 2 stLC2 (0, sarC2)).agStore.getD 0
        default).alive = false ∧
    ((processAgent ops0 1 gridC2 2 stLC2 (0, sarC2)).agStore.getD 1
        default).energy = victimC1.energy - 40 ∧
    ((processAgent ops0 1 gridC2 2 stLC2 (0, sarC2)).resStore.getD 0
        default).present = false ∧
    ((processAgent ops0 1 gridC2 2 stLC2 (0, sarC2)).agStore.getD 0
        default).thirst = 797/200 ∧
    (processAgent ops0 1 gridC2 2 stLC2 (0, sarC2)).new_agents.length = 1 ∧
    (processAgent ops0 1 gridC2 2 stLC2 (0, sarC2)).activeIdx = [] := by
  refine ⟨rfl, ?_, ?_, ?_, ?_, ?_, ?_⟩ <;>
    norm_num [processAgent, partitionNearby, consumeFood, consumeStep,
      drinkWater, drinkStep, Agent.update, Agent.senseNearest,
      Agent.metabolism, Agent.hunterPhase, Agent.hunterStep, Agent.reproduce,
      Agent.make, Agent.clampTrait, archetypeOf, NeuralNetwork.predict,
      NeuralNetwork.fresh, NeuralNetwork.mutate, NeuralNetwork.mutW,
      mapIdxFrom, NeuralNetwork.num_in, NeuralNetwork.num_out, entPos,
      SpatialGrid.init, SpatialGrid.insertAll, SpatialGrid.insert,
      SpatialGrid.get_key, SpatialGrid.get_nearby, intRangeList, intRangeAux,
      qmod, dsq, zeroBrain6, ops0, gridC2, stLC2, sarC2, rrIdle, hunterC2,
      hunterC1, victimC1, foodC2, waterC2, config.MIN_POP, config.MAX_POP,
      config.WORLD_W, config.WORLD_H, config.GRID_CELL_SIZE, config.HID_NODES,
      config.DECAY_ENERGY, config.DECAY_THIRST, config.REPRO_THRESHOLD,
      config.REPRO_COST, config.BASE_STAT, config.MUTATION_RATE_STRUCT,
      config.MAX_HIDDEN_NODES, List.range_succ, Int.reduceToNat, min_def,
      gatherer_ne_explorer, hunter_ne_explorer, gatherer_ne_hunter,
      water_ne_food, food_ne_water]

/-- Witness for the amended C2: a concrete metabolism death clears the flag,
and a concrete loop iteration preserves the roster length. -/
theorem claim_C2_witness :
    (agC1.metabolism 0 0 7000).alive = false ∧
    (processAgent ops0 1 gridC2 2 stLC2 (0, sarC2)).agStore.length
      = stLC2.agStore.length :=
  ⟨(claim_C2_death_semantics ops0 7000 gridC2 2 stLC2 0 sarC2 agC1 0 [] []
      false 0 0).1
    (Or.inl (by norm_num [Agent.metabolism, agC1, config.DECAY_ENERGY,
      gatherer_ne_explorer])),
   (claim_C2_death_semantics ops0 1 gridC2 2 stLC2 0 sarC2 agC1 0 [] []
      false 0 0).2.1⟩

theorem bool_ne_false {b : Bool} (h : ¬ b = false) : b = true := by
  cases b
  · exact absurd rfl h
  · rfl

/-- A store read whose entry is active hit a real entry (the default is
inactive). -/
theorem active_getD_lt (res : List ResState) (k : ℕ)
    (h : (res.getD k default).active = true) : k < res.length := by
  by_contra hge
  rw [List.getD_eq_default _ _ (by omega)] at h
  exact absurd h (by decide)

/-- Food candidates produced by the partition step are active food-typed
entries of the resource store. -/
theorem partitionNearby_food_spec (selfIdx : ℕ) (res : List ResState)
    (l : List Ent) :
    ∀ k ∈ (partitionNearby selfIdx res l).1,
      (res.getD k default).rtype = RType.food ∧
        (res.getD k default).active = true := by
  induction l with
  | nil => intro k hk; cases hk
  | cons e rest ih =>
    intro k hk
    unfold partitionNearby at hk
    cases e with
    | res k2 =>
      dsimp only at hk
      by_cases ha : (res.getD k2 default).active = false
      · rw [if_pos ha] at hk
        exact ih k hk
      · rw [if_neg ha] at hk
        by_cases ht : (res.getD k2 default).rtype = RType.food
        · rw [if_pos ht] at hk
          rcases List.mem_cons.mp hk with rfl | hk2
          · exact ⟨ht, bool_ne_false ha⟩
          · exact ih k hk2
        · rw [if_neg ht] at hk
          exact ih k hk
    | ag i =>
      dsimp only at hk
      by_cases hi : i = selfIdx
      · rw [if_pos hi] at hk
        exact ih k hk
      · rw [if_neg hi] at hk
        exact ih k hk

/-- Invariants of the food-consumption fold: every credited id is left
inactive, credits are never duplicated, the fold only deactivates (never
reactivates), every new credit was active at the start of the fold, inactive
entries are untouched, resource kinds are untouched, and ids outside the
candidate list are untouched. -/
theorem consumeFold_aux (apos : ℚ × ℚ) (ids : List ℕ) :
    ∀ (e : ℚ) (res : List ResState) (ev : List ℕ),
    (∀ k ∈ ev, (res.getD k default).active = false) → ev.Nodup →
    ((∀ k ∈ (ids.foldl (consumeStep apos) (e, res, ev)).2.2,
        ((ids.foldl (consumeStep apos) (e, res, ev)).2.1.getD k default).active
          = false) ∧
     (ids.foldl (consumeStep apos) (e, res, ev)).2.2.Nodup ∧
     (∀ k, ((ids.foldl (consumeStep apos) (e, res, ev)).2.1.getD k
        default).active = true → (res.getD k default).active = true) ∧
     (∀ k ∈ (ids.foldl (consumeStep apos) (e, res, ev)).2.2,
        k ∈ ev ∨ (res.getD k default).active = true) ∧
     (∀ k, (res.getD k default).active = false →
        (ids.foldl (consumeStep apos) (e, res, ev)).2.1.getD k default
          = res.getD k default) ∧
     (∀ k, ((ids.foldl (consumeStep apos) (e, res, ev)).2.1.getD k
        default).rtype = (res.getD k default).rtype) ∧
     (∀ k, k ∉ ids →
        (ids.foldl (consumeStep apos) (e, res, ev)).2.1.getD k default
          = res.getD k default)) := by
  induction ids with
  | nil =>
    intro e res ev hinv hnd
    exact ⟨hinv, hnd, fun k h => h, fun k hk => Or.inl hk, fun k _ => rfl,
      fun k => rfl, fun k _ => rfl⟩
  | cons id rest ih =>
    intro e res ev hinv hnd
    rw [List.foldl_cons]
    by_cases hg : ((res.getD id default).active = true ∧
        dsq apos ((res.getD id default).posx, (res.getD id default).posy) < 400)
    · have hlen : id < res.length := active_getD_lt res id hg.1
      have hstep : consumeStep apos (e, res, ev) id
          = (min 100 (e + 35),
             res.set id { res.getD id default with active := false, present := false },
             ev ++ [id]) := by
        unfold consumeStep
        dsimp only
        rw [if_pos hg]
      rw [hstep]
      have hget1 : ∀ k,
          (res.set id { res.getD id default with active := false, present := false }).getD k default
          = if id = k then { res.getD id default with active := false, present := false }
            else res.getD k default := by
        intro k
        by_cases hk : id = k
        · subst hk
          rw [getD_set_self _ _ hlen, if_pos rfl]
        · rw [getD_set_ne _ _ hk, if_neg hk]
      have hid_nin : id ∉ ev := by
        intro hmem
        have hf := hinv id hmem
        rw [hg.1] at hf
        exact absurd hf (by decide)
      have hinv1 : ∀ k ∈ ev ++ [id],
          ((res.set id { res.getD id default with active := false, present := false }).getD k default).active = false := by
        intro k hk
        rw [hget1 k]
        split_ifs with hik
        · rfl
        · rcases List.mem_append.mp hk with h1 | h2
          · exact hinv k h1
          · rw [List.mem_singleton] at h2
            exact absurd h2.symm hik
      have hnd1 : (ev ++ [id]).Nodup := by
        rw [List.nodup_append]
        exact ⟨hnd, List.nodup_singleton _, by simpa using hid_nin⟩
      obtain ⟨A, B, C, D, E, F, G⟩ := ih (min 100 (e + 35)) _ (ev ++ [id])
        hinv1 hnd1
      refine ⟨A, B, ?_, ?_, ?_, ?_, ?_⟩
      · intro k hk
        have hc := C k hk
        rw [hget1 k] at hc
        split_ifs at hc with hik
        exact hc
      · intro k hk
        rcases D k hk with hk1 | hk2
        · rcases List.mem_append.mp hk1 with h1 | h2
          · exact Or.inl h1
          · rw [List.mem_singleton] at h2
            subst h2
            exact Or.inr hg.1
        · rw [hget1 k] at hk2
          split_ifs at hk2 with hik
          exact Or.inr hk2
      · intro k hk
        have hne : id ≠ k := by
          intro he
          rw [← he, hg.1] at hk
          exact absurd hk (by decide)
        have hr1k :
            (res.set id { res.getD id default with active := false, present := false }).getD k default
              = res.getD k default := by
          rw [hget1 k, if_neg hne]
        have hE := E k (by rw [hr1k]; exact hk)
        exact hE.trans hr1k
      · intro k
        have hf := F k
        rw [hget1 k] at hf
        split_ifs at hf with hik
        · rw [hf, ← hik]
        · exact hf
      · intro k hk
        have hkrest : k ∉ rest := fun h => hk (List.mem_cons_of_mem _ h)
        have hkid : id ≠ k := fun h => hk (h ▸ List.mem_cons_self _ _)
        rw [G k hkrest, hget1 k, if_neg hkid]
    · have hstep : consumeStep apos (e, res, ev) id = (e, res, ev) := by
        unfold consumeStep
        dsimp only
        rw [if_neg hg]
      rw [hstep]
      obtain ⟨A, B, C, D, E, F, G⟩ := ih e res ev hinv hnd
      exact ⟨A, B, C, D, E, F,
        fun k hk => G k (fun h => hk (List.mem_cons_of_mem _ h))⟩

/-- Shape of one loop iteration, as far as the resource store and the
consumption events are concerned: either the agent was dead and nothing
happened, or the new store and events come from one consumeFood run over
food-typed active candidate ids. -/
theorem processAgent_shape (ops : MathOps) (dt : ℚ) (grid : SpatialGrid Ent)
    (nA : ℕ) (st : LoopState) (i : ℕ) (r : StepAgentRand) :
    processAgent ops dt grid nA st (i, r) = st ∨
    ∃ (apos : ℚ × ℚ) (e : ℚ) (food : List ℕ),
      (∀ k ∈ food, (st.resStore.getD k default).rtype = RType.food ∧
        (st.resStore.getD k default).active = true) ∧
      (processAgent ops dt grid nA st (i, r)).resStore
        = (consumeFood apos e st.resStore food).2.1 ∧
      (processAgent ops dt grid nA st (i, r)).events
        = st.events ++ (consumeFood apos e st.resStore food).2.2.map
            (fun k => (i, k)) := by
  by_cases hdead : (st.agStore.getD i default).alive = false
  · left
    unfold processAgent
    dsimp only
    rw [if_pos hdead]
  · right
    unfold processAgent
    dsimp only
    rw [if_neg hdead]
    dsimp only
    exact ⟨_, _, _, partitionNearby_food_spec i st.resStore _, rfl, rfl⟩

/-- Water entries and the consumption-event invariant across the whole
per-agent loop. -/
theorem runLoop_res_ev (ops : MathOps) (dt : ℚ) (grid : SpatialGrid Ent)
    (nA : ℕ) (sr : StepRand) (idxs : List ℕ) :
    ∀ st : LoopState,
    ((st.events.map Prod.snd).Nodup ∧
      (∀ k ∈ st.events.map Prod.snd,
        (st.resStore.getD k default).active = false) →
      ((runLoop ops dt grid nA sr st idxs).events.map Prod.snd).Nodup ∧
      (∀ k ∈ (runLoop ops dt grid nA sr st idxs).events.map Prod.snd,
        ((runLoop ops dt grid nA sr st idxs).resStore.getD k default).active
          = false)) ∧
    (∀ k, (st.resStore.getD k default).rtype = RType.water →
      (runLoop ops dt grid nA sr st idxs).resStore.getD k default
        = st.resStore.getD k default) := by
  induction idxs with
  | nil => exact fun st => ⟨fun h => h, fun k _ => rfl⟩
  | cons i rest ih =>
    intro st
    have hstep : runLoop ops dt grid nA sr st (i :: rest)
        = runLoop ops dt grid nA sr
            (processAgent ops dt grid nA st (i, sr.agentRand i)) rest := by
      unfold runLoop
      rw [List.foldl_cons]
    rw [hstep]
    rcases processAgent_shape ops dt grid nA st i (sr.agentRand i) with
      hid | ⟨apos, e, food, hfood, hres, hev⟩
    · rw [hid]
      exact ih st
    · rw [show consumeFood apos e st.resStore food
          = food.foldl (consumeStep apos) (e, st.resStore, []) from rfl]
        at hres hev
      obtain ⟨A, B, C, D, E, F, G⟩ := consumeFold_aux apos food e st.resStore
        [] (fun k hk => absurd hk (List.not_mem_nil k)) List.nodup_nil
      set st1 := processAgent ops dt grid nA st (i, sr.agentRand i) with hst1
      have hwater1 : ∀ k, (st.resStore.getD k default).rtype = RType.water →
          st1.resStore.getD k default = st.resStore.getD k default := by
        intro k hw
        rw [hres]
        refine G k ?_
        intro hkf
        have := (hfood k hkf).1
        rw [this] at hw
        exact absurd hw (by decide)
      constructor
      · rintro ⟨hnd, hinact⟩
        have hmapsnd : st1.events.map Prod.snd
            = st.events.map Prod.snd
              ++ (food.foldl (consumeStep apos) (e, st.resStore, [])).2.2 := by
          rw [hev, List.map_append, List.map_map]
          congr 1
          simp [Function.comp]
        have hnd1 : (st1.events.map Prod.snd).Nodup := by
          rw [hmapsnd, List.nodup_append]
          refine ⟨hnd, B, ?_⟩
          intro x hx hx2
          have hxina := hinact x hx
          rcases D x hx2 with h1 | h2
          · exact absurd h1 (List.not_mem_nil x)
          · rw [hxina] at h2
            exact absurd h2 (by decide)
        have hinact1 : ∀ k ∈ st1.events.map Prod.snd,
            (st1.resStore.getD k default).active = false := by
          intro k hk
          rw [hmapsnd, List.mem_append] at hk
          rcases hk with h1 | h2
          · have hold := hinact k h1
            rw [hres, E k hold]
            exact hold
          · rw [hres]
            exact A k h2
        exact ih st1 |>.1 ⟨hnd1, hinact1⟩
      · intro k hw
        have h1 := hwater1 k hw
        have h2 := (ih st1).2 k (by rw [h1]; exact hw)
        exact h2.trans h1

/-- Claim C6: within a single tick, each Resource is credited to at most one
agent (the consumption-event list never repeats a resource id); a food
resource in squared distance 400 is consumed only while its active flag is
set, whereupon the energy gain is min(100, energy + 35) and both the active
flag and live-set membership are cleared; a water resource in range raises
thirst to min(100, thirst + 4·dt) and is never removed or modified. -/
theorem claim_C6_exclusive_consumption (ops : MathOps) (dt : ℚ)
    (grid : SpatialGrid Ent) (nA : ℕ) (sr : StepRand) (idxs : List ℕ)
    (agents : List Agent) (res : List ResState) (heat : (ℤ × ℤ) → ℕ)
    (mg : ℕ) :
    (((runLoop ops dt grid nA sr
        { agStore := agents, resStore := res, new_agents := [],
          activeIdx := [], heatmap := heat, events := [], max_gen := mg }
        idxs).events.map Prod.snd).Nodup) ∧
    (∀ (apos : ℚ × ℚ) (acc : ℚ × List ResState × List ℕ) (k : ℕ),
      ((acc.2.1.getD k default).active = true →
        dsq apos ((acc.2.1.getD k default).posx,
          (acc.2.1.getD k default).posy) < 400 →
        (consumeStep apos acc k).1 = min 100 (acc.1 + 35) ∧
        ((consumeStep apos acc k).2.1.getD k default).active = false ∧
        ((consumeStep apos acc k).2.1.getD k default).present = false ∧
        (consumeStep apos acc k).2.2 = acc.2.2 ++ [k]) ∧
      (¬ ((acc.2.1.getD k default).active = true ∧
          dsq apos ((acc.2.1.getD k default).posx,
            (acc.2.1.getD k default).posy) < 400) →
        consumeStep apos acc k = acc)) ∧
    (∀ (apos : ℚ × ℚ) (rs : List ResState) (dtw t : ℚ) (k : ℕ),
      (dsq apos ((rs.getD k default).posx, (rs.getD k default).posy) < 400 →
        drinkStep apos rs dtw t k = min 100 (t + 4 * dtw)) ∧
      (¬ dsq apos ((rs.getD k default).posx, (rs.getD k default).posy) < 400 →
        drinkStep apos rs dtw t k = t)) ∧
    (∀ k, (res.getD k default).rtype = RType.water →
      (runLoop ops dt grid nA sr
        { agStore := agents, resStore := res, new_agents := [],
          activeIdx := [], heatmap := heat, events := [], max_gen := mg }
        idxs).resStore.getD k default = res.getD k default) := by
  refine ⟨?_, ?_, ?_, ?_⟩
  · have h := (runLoop_res_ev ops dt grid nA sr idxs
      { agStore := agents, resStore := res, new_agents := [], activeIdx := [],
        heatmap := heat, events := [], max_gen := mg }).1
    exact (h ⟨by simp, by simp⟩).1
  · intro apos acc k
    constructor
    · intro hact hdist
      have hlen : k < acc.2.1.length := active_getD_lt _ k hact
      have hstep : consumeStep apos acc k
          = (min 100 (acc.1 + 35),
             acc.2.1.set k { acc.2.1.getD k default with active := false, present := false },
             acc.2.2 ++ [k]) := by
        unfold consumeStep
        dsimp only
        rw [if_pos ⟨hact, hdist⟩]
      rw [hstep]
      refine ⟨rfl, ?_, ?_, rfl⟩ <;> rw [getD_set_self _ _ hlen]
    · intro hng
      unfold consumeStep
      dsimp only
      rw [if_neg hng]
  · intro apos rs dtw t k
    constructor
    · intro hd
      unfold drinkStep
      dsimp only
      rw [if_pos hd]
    · intro hd
      unfold drinkStep
      dsimp only
      rw [if_neg hd]
  · exact (runLoop_res_ev ops dt grid nA sr idxs
      { agStore := agents, resStore := res, new_agents := [], activeIdx := [],
        heatmap := heat, events := [], max_gen := mg }).2

/-- Witness for C6: the food step applied to a concrete active in-range
resource, and water preservation through a concrete loop. -/
theorem claim_C6_witness :
    (consumeStep (102, 101) (50, [foodC2], []) 0).1 = min 100 (50 + 35) ∧
    ((consumeStep (102, 101) (50, [foodC2], []) 0).2.1.getD 0
        default).present = false ∧
    (runLoop ops0 1 gridC2 2
        { freshDraws := seedFreshC5, agentRand := fun _ => sarC2,
          regenRoll := 1, spawnerIdx := 0, spawnAngle := 0, spawnDist := 0 }
        { agStore := [hunterC2, victimC1], resStore := [foodC2, waterC2],
          new_agents := [], activeIdx := [], heatmap := fun _ => 0,
          events := [], max_gen := 1 }
        [0]).resStore.getD 1 default = waterC2 := by
  refine ⟨?_, ?_, ?_⟩
  · exact ((claim_C6_exclusive_consumption ops0 1 gridC2 2
      { freshDraws := seedFreshC5, agentRand := fun _ => sarC2,
        regenRoll := 1, spawnerIdx := 0, spawnAngle := 0, spawnDist := 0 }
      [0] [hunterC2, victimC1] [foodC2, waterC2] (fun _ => 0) 1).2.1
      (102, 101) (50, [foodC2], []) 0).1 (by norm_num [foodC2])
      (by norm_num [foodC2, dsq]) |>.1
  · exact ((claim_C6_exclusive_consumption ops0 1 gridC2 2
      { freshDraws := seedFreshC5, agentRand := fun _ => sarC2,
        regenRoll := 1, spawnerIdx := 0, spawnAngle := 0, spawnDist := 0 }
      [0] [hunterC2, victimC1] [foodC2, waterC2] (fun _ => 0) 1).2.1
      (102, 101) (50, [foodC2], []) 0).1 (by norm_num [foodC2])
      (by norm_num [foodC2, dsq]) |>.2.2.1
  · have h := (claim_C6_exclusive_consumption ops0 1 gridC2 2
      { freshDraws := seedFreshC5, agentRand := fun _ => sarC2,
        regenRoll := 1, spawnerIdx := 0, spawnAngle := 0, spawnDist := 0 }
      [0] [hunterC2, victimC1] [foodC2, waterC2] (fun _ => 0) 1).2.2.2 1
      (by norm_num [waterC2])
    rw [h]
    norm_num [waterC2]

end BioGen
